import Mathlib

/-!
# Verification of the Syntherium financial core

A shallow embedding of the ledger engine (`libs/ledger-core`), the
settlement orchestrator (`settlement.service.ts`), the webhook ingress
pipeline (`webhook.service.ts`), the payment-intent service
(`payment-intent.service.ts`) and the database seed (`prisma/seed.ts`).

Modelling conventions:
* `Prisma.Decimal` amounts are integers in minor units at scale 4
  (the `DECIMAL` storage contract).  `Decimal.toString` — decimal.js —
  normalizes: trailing fractional zeros are dropped at parse time, so
  `new Decimal("1000.0000").toString()` is `"1000"`; `decimalToString`
  models this.  `decToString` is the scale-4 canonical string the spec
  mandates (`"1000.0000"`), which the seed script hashes as a literal;
  the two differ exactly on amounts with trailing fractional zeros.
* SHA-256 is an arbitrary function parameter `sha : String → String`;
  every theorem is proved for all `sha`, so it holds for SHA-256 in
  particular.  `computeEntryHash` applies `sha` to the canonical JSON
  serialization, which is modelled byte for byte.
* A Prisma `$transaction` is modelled by explicit state passing in
  `Except`: a thrown error (`.error`) means the transaction rolled back
  and the database is unchanged; `.ok (r, db')` means it committed,
  leaving the database `db'`.  The `…Run` wrappers make the resulting
  state explicit (`db` itself on rollback).
-/

namespace Synth

/-- `LedgerEntryType` from the Prisma schema. -/
inductive EntryType where
  | CREDIT
  | DEBIT
deriving DecidableEq, Repr

/-- The string form of the entry type used in the canonical hash input. -/
def EntryType.toStr : EntryType → String
  | .CREDIT => "CREDIT"
  | .DEBIT => "DEBIT"

/-- Zero-padded four-digit string of `frac < 10000`. -/
def pad4 (frac : Nat) : String :=
  if frac < 10 then "000" ++ toString frac
  else if frac < 100 then "00" ++ toString frac
  else if frac < 1000 then "0" ++ toString frac
  else toString frac

/-- Scale-4 canonical decimal string of an amount in minor units,
e.g. `decToString 10000000 = "1000.0000"` — the serialization the
spec's canonical-hashing contract names ("always show exactly four
fractional digits").  The seed script hashes such literals. -/
def decToString (n : Int) : String :=
  let m := n.natAbs
  (if n < 0 then "-" else "") ++ toString (m / 10000) ++ "." ++
    pad4 (m % 10000)

/-- `Prisma.Decimal.toString` (decimal.js) on a scale-4 amount in minor
units: the value's normalized decimal string — trailing fractional
zeros are not retained (`"1000.0000"` parses to the value printed
`"1000"`, `"1.2340"` to `"1.234"`).  Exponential output starts only
beyond 1e21, far outside the monetary range, so fixed-point notation is
the faithful model here. -/
def decimalToString (n : Int) : String :=
  let m := n.natAbs
  let fracDigits := ((pad4 (m % 10000)).toList.reverse.dropWhile
    (fun c => c = '0')).reverse
  (if n < 0 then "-" else "") ++ toString (m / 10000) ++
    (if fracDigits.isEmpty then "" else "." ++ String.mk fracDigits)

/-- JSON escaping of a single character, as `JSON.stringify` does. -/
def jsonEscapeChar (c : Char) : String :=
  if c = '"' then "\\\""
  else if c = '\\' then "\\\\"
  else if c = Char.ofNat 10 then "\\n"
  else if c = Char.ofNat 13 then "\\r"
  else if c = Char.ofNat 9 then "\\t"
  else if c = Char.ofNat 8 then "\\b"
  else if c = Char.ofNat 12 then "\\f"
  else String.singleton c

/-- A JSON string literal, as `JSON.stringify` produces for a string. -/
def jsonString (s : String) : String :=
  "\"" ++ String.join (s.toList.map jsonEscapeChar) ++ "\""

/-- A nullable JSON string: `null` when absent (never the string `"null"`). -/
def jsonStringOpt : Option String → String
  | none => "null"
  | some s => jsonString s

/-- The canonical fixed-key-order JSON serialization hashed by
`computeEntryHash` in `ledger-core/index.ts`:
`JSON.stringify({prevHash, accountId, walletSeq, reference, entryType, amount, description})`. -/
def canonicalEntryJson (prevHash : Option String) (accountId : String)
    (walletSeq : Nat) (reference : String) (entryType : String)
    (amount : String) (description : Option String) : String :=
  "\x7b\"prevHash\":" ++ jsonStringOpt prevHash ++
  ",\"accountId\":" ++ jsonString accountId ++
  ",\"walletSeq\":" ++ toString walletSeq ++
  ",\"reference\":" ++ jsonString reference ++
  ",\"entryType\":" ++ jsonString entryType ++
  ",\"amount\":" ++ jsonString amount ++
  ",\"description\":" ++ jsonStringOpt description ++ "\x7d"

/-- `computeEntryHash` from `ledger-core/index.ts`: SHA-256 (the `sha`
parameter) of the canonical JSON serialization. -/
def computeEntryHash (sha : String → String) (prevHash : Option String)
    (accountId : String) (walletSeq : Nat) (reference : String)
    (entryType : String) (amount : String) (description : Option String) :
    String :=
  sha (canonicalEntryJson prevHash accountId walletSeq reference entryType
    amount description)

/-- A row of the append-only `LedgerEntry` table. -/
structure LedgerEntry where
  id : Nat
  accountId : String
  walletSeq : Nat
  reference : String
  orderId : Option String := none
  entryType : EntryType
  amount : Int
  description : Option String := none
  prevHash : Option String := none
  entryHash : String
deriving DecidableEq, Repr

/-- A row of the `WalletBalanceCache` table. -/
structure BalanceRow where
  accountId : String
  balance : Int
  currency : String := "NGN"
  lastEntrySeq : Nat
deriving DecidableEq, Repr

/-- `PaymentIntentStatus` from the Prisma schema. -/
inductive IntentStatus where
  | PENDING
  | INITIATED
  | CONFIRMING
  | SETTLED
  | FAILED
  | EXPIRED
  | REFUNDED
deriving DecidableEq, Repr

/-- A row of the `PaymentIntent` table (the fields the core reads). -/
structure PaymentIntent where
  id : String
  reference : String
  orderId : String
  amount : Int
  originalAmount : Int
  discountAmount : Int
  discountCode : Option String := none
  status : IntentStatus
deriving DecidableEq, Repr

/-- `WebhookStatus` from the Prisma schema. -/
inductive WebhookStatus where
  | RECEIVED
  | VERIFIED
  | PROCESSED
  | FAILED
  | DUPLICATE
deriving DecidableEq, Repr

/-- A row of the `WebhookInbox` table (the fields the pipeline touches).
`processedAt` is modelled as a set/unset flag. -/
structure WebhookInboxEntry where
  id : Nat
  provider : String
  providerEventId : String
  reference : Option String := none
  status : WebhookStatus
  errorMessage : Option String := none
  processedAtSet : Bool := false
deriving DecidableEq, Repr

/-- The shared relational store.  The `next…` counters model the
store's opaque id generation. -/
structure DB where
  entries : List LedgerEntry := []
  balances : List BalanceRow := []
  intents : List PaymentIntent := []
  webhooks : List WebhookInboxEntry := []
  nextEntryId : Nat := 0
  nextWebhookId : Nat := 0
deriving Repr

/-- `findUnique` on the `(accountId, reference)` compound key. -/
def findEntryByAccountRef (db : DB) (a r : String) : Option LedgerEntry :=
  db.entries.find? (fun e => e.accountId == a && e.reference == r)

/-- `findUnique` on the balance-cache primary key. -/
def findBalance (db : DB) (a : String) : Option BalanceRow :=
  db.balances.find? (fun b => b.accountId == a)

/-- Stable insertion by ascending `walletSeq` (auxiliary for the
`orderBy: walletSeq` reads). -/
def insertBySeq (e : LedgerEntry) : List LedgerEntry → List LedgerEntry
  | [] => [e]
  | f :: fs => if e.walletSeq ≤ f.walletSeq then e :: f :: fs
               else f :: insertBySeq e fs

/-- Sort by ascending `walletSeq` (the `orderBy: { walletSeq: 'asc' }`
of the store). -/
def sortBySeq : List LedgerEntry → List LedgerEntry
  | [] => []
  | e :: es => insertBySeq e (sortBySeq es)

/-- `findMany({where: accountId, orderBy: walletSeq asc})`. -/
def entriesFor (db : DB) (a : String) : List LedgerEntry :=
  sortBySeq (db.entries.filter (fun e => e.accountId == a))

/-- Last element of a list of entries. -/
def lastOf : List LedgerEntry → Option LedgerEntry
  | [] => none
  | e :: es =>
    match es with
    | [] => some e
    | _ :: _ => lastOf es

/-- `findFirst({where: accountId, orderBy: walletSeq desc})`: the
maximal-`walletSeq` entry of the account (the last of the ascending
list). -/
def lastEntryFor (db : DB) (a : String) : Option LedgerEntry :=
  lastOf (entriesFor db a)

/-- Input of `appendEntry` (`AppendEntryParams`). -/
structure AppendEntryParams where
  reference : String
  orderId : Option String := none
  accountId : String
  entryType : EntryType
  amount : Int
  description : Option String := none

/-- Output of `appendEntry` (`AppendEntryResult`). -/
structure AppendEntryResult where
  id : Nat
  accountId : String
  walletSeq : Nat
  reference : String
  entryType : EntryType
  amount : Int
  entryHash : String
  prevHash : Option String
deriving DecidableEq, Repr

/-- Projection of a stored entry onto the `AppendEntryResult` shape. -/
def toResult (e : LedgerEntry) : AppendEntryResult :=
  { id := e.id, accountId := e.accountId, walletSeq := e.walletSeq,
    reference := e.reference, entryType := e.entryType, amount := e.amount,
    entryHash := e.entryHash, prevHash := e.prevHash }

/-- The errors `appendEntry` throws (`Insufficient balance for …`,
`Cannot debit non-existent wallet: …`). -/
inductive LedgerError where
  | insufficientBalance (accountId : String) (current : Int) (required : String)
  | debitOnNonExistentWallet (accountId : String)
deriving DecidableEq, Repr

/-- The `walletSeq` the next entry on account `a` receives:
`(lastEntry?.walletSeq ?? 0) + 1`. -/
def nextSeq (db : DB) (a : String) : Nat :=
  (match lastEntryFor db a with
   | some e => e.walletSeq
   | none => 0) + 1

/-- The ledger entry `appendEntry` constructs for parameters `p` on
state `db` (steps 2–4 of the append algorithm). -/
def newEntry (sha : String → String) (db : DB) (p : AppendEntryParams) :
    LedgerEntry :=
  let prevHash := (lastEntryFor db p.accountId).map (·.entryHash)
  let walletSeq := nextSeq db p.accountId
  { id := db.nextEntryId
    accountId := p.accountId
    walletSeq := walletSeq
    reference := p.reference
    orderId := p.orderId
    entryType := p.entryType
    amount := p.amount
    description := p.description
    prevHash := prevHash
    entryHash := computeEntryHash sha prevHash p.accountId walletSeq
      p.reference p.entryType.toStr (decimalToString p.amount) p.description }

/-- Replace the balance-cache row of `a` (the `update` of step 6). -/
def updateBalanceRow (db : DB) (a : String) (newBalance : Int)
    (seq : Nat) : DB :=
  { db with balances := db.balances.map (fun r =>
      if r.accountId == a then
        { r with balance := newBalance, lastEntrySeq := seq }
      else r) }

/-- `const balanceChange = entryType === CREDIT ? amountDecimal :
amountDecimal.negated()`. -/
def balanceChange (p : AppendEntryParams) : Int :=
  match p.entryType with
  | .CREDIT => p.amount
  | .DEBIT => -p.amount

/-- `appendEntry` from `ledger-core/index.ts`, inside its serializable
transaction: idempotency probe, tail read, hash-chained insert, balance
cache maintenance.  `.error` models the thrown exception rolling the
transaction back. -/
def appendEntry (sha : String → String) (db : DB) (p : AppendEntryParams) :
    Except LedgerError (AppendEntryResult × DB) :=
  match findEntryByAccountRef db p.accountId p.reference with
  | some existingEntry => .ok (toResult existingEntry, db)
  | none =>
    let entry := newEntry sha db p
    let db1 := { db with entries := db.entries ++ [entry],
                         nextEntryId := db.nextEntryId + 1 }
    match findBalance db p.accountId with
    | some existingBalance =>
      let newBalance := existingBalance.balance + balanceChange p
      if newBalance < 0 then
        .error (.insufficientBalance p.accountId existingBalance.balance
          (decimalToString p.amount))
      else
        .ok (toResult entry,
          updateBalanceRow db1 p.accountId newBalance entry.walletSeq)
    | none =>
      if p.entryType = .DEBIT then
        .error (.debitOnNonExistentWallet p.accountId)
      else
        .ok (toResult entry,
          { db1 with balances := db1.balances ++
              [{ accountId := p.accountId, balance := p.amount,
                 currency := "NGN", lastEntrySeq := entry.walletSeq }] })

/-- The store state after an `appendEntry` call: the committed state on
success, the unchanged state on rollback. -/
def appendRun (sha : String → String) (db : DB) (p : AppendEntryParams) :
    DB :=
  match appendEntry sha db p with
  | .ok (_, db') => db'
  | .error _ => db

/-- `VerifyChainResult` from `ledger-core/index.ts`; absent optional
fields are `none`. -/
structure VerifyChainResult where
  accountId : String
  valid : Bool
  entriesVerified : Nat
  brokenAtSeq : Option Nat := none
  expectedHash : Option String := none
  actualHash : Option String := none
  message : String
deriving DecidableEq, Repr

/-- The `for (const entry of entries)` loop of `verifyChain`: scans the
ascending entries threading the expected previous hash; `some r` is an
early failure return, `none` means the loop completed. -/
def verifyScan (sha : String → String) (a : String) (fromSeqD : Nat) :
    Option String → List LedgerEntry → Option VerifyChainResult
  | _, [] => none
  | prevHash, e :: rest =>
    let expectedHash := computeEntryHash sha prevHash e.accountId
      e.walletSeq e.reference e.entryType.toStr (decimalToString e.amount)
      e.description
    if expectedHash ≠ e.entryHash then
      some { accountId := a, valid := false,
             entriesVerified := e.walletSeq - fromSeqD,
             brokenAtSeq := some e.walletSeq,
             expectedHash := some expectedHash,
             actualHash := some e.entryHash,
             message := "Chain broken at sequence " ++ toString e.walletSeq }
    else if e.prevHash ≠ prevHash then
      some { accountId := a, valid := false,
             entriesVerified := e.walletSeq - fromSeqD,
             brokenAtSeq := some e.walletSeq,
             expectedHash := some (prevHash.getD "null"),
             actualHash := some (e.prevHash.getD "null"),
             message := "Previous hash mismatch at sequence " ++
               toString e.walletSeq }
    else
      verifyScan sha a fromSeqD (some e.entryHash) rest

/-- `verifyChain` from `ledger-core/index.ts`: reads the account's
entries in the optional `[fromSeq, toSeq]` window in ascending
`walletSeq`, bootstraps the expected previous hash when `fromSeq > 1`,
and recomputes every hash. -/
def verifyChain (sha : String → String) (db : DB) (accountId : String)
    (fromSeq toSeq : Option Nat) : VerifyChainResult :=
  let entries := sortBySeq (db.entries.filter (fun e =>
    e.accountId == accountId &&
    (match fromSeq with | some f => decide (f ≤ e.walletSeq) | none => true) &&
    (match toSeq with | some t => decide (e.walletSeq ≤ t) | none => true)))
  if entries.isEmpty then
    { accountId := accountId, valid := true, entriesVerified := 0,
      message := "No entries found for account" }
  else
    let prevHash : Option String :=
      match fromSeq with
      | some f =>
        if 1 < f then
          (db.entries.find? (fun e =>
            e.accountId == accountId && e.walletSeq == f - 1)).map
            (·.entryHash)
        else none
      | none => none
    match verifyScan sha accountId ((fromSeq.getD 1)) prevHash entries with
    | some failure => failure
    | none =>
      { accountId := accountId, valid := true,
        entriesVerified := entries.length,
        message := "Chain integrity verified" }

-- ---------------------------------------------------------------------
-- Settlement Orchestrator (`settlement.service.ts`)
-- ---------------------------------------------------------------------

/-- System wallet identifiers of `settlement.service.ts`. -/
def PLATFORM_ESCROW : String := "PLATFORM_ESCROW"

/-- Marketing subsidy wallet identifier. -/
def MARKETING_WALLET : String := "MARKETING_WALLET"

/-- `SettlementResult` from `settlement.service.ts`. -/
structure SettlementResult where
  success : Bool
  paymentIntentId : String
  reference : String
  ledgerEntries : List AppendEntryResult
  message : String
deriving DecidableEq, Repr

/-- The `BadRequestException`s of `settlePayment`, plus the propagated
ledger errors. -/
inductive SettleError where
  | intentNotFound (id : String)
  | invalidStatusForSettlement (current : IntentStatus)
  | ledger (e : LedgerError)
deriving DecidableEq, Repr

/-- JS template interpolation of a nullable string (`null` prints as
`"null"`). -/
def interpOpt : Option String → String
  | none => "null"
  | some s => s

/-- Prisma's `startsWith` string filter, modelled on the character
list. -/
def strStartsWith (s pre : String) : Bool :=
  pre.toList.isPrefixOf s.toList

/-- The primary settlement leg (step 4): CREDIT `intent.amount` to
`PLATFORM_ESCROW` under the intent's own reference. -/
def primaryParams (intent : PaymentIntent) : AppendEntryParams :=
  { reference := intent.reference, orderId := some intent.orderId,
    accountId := PLATFORM_ESCROW, entryType := .CREDIT,
    amount := intent.amount,
    description := some ("Payment received for order " ++
      intent.orderId) }

/-- The marketing-wallet debit leg (step 5a): DEBIT `discountAmount`
from `MARKETING_WALLET` under `reference + "_DISC"`. -/
def discountParams (intent : PaymentIntent) : AppendEntryParams :=
  { reference := intent.reference ++ "_DISC",
    orderId := some intent.orderId,
    accountId := MARKETING_WALLET, entryType := .DEBIT,
    amount := intent.discountAmount,
    description := some ("Discount subsidy for order " ++
      intent.orderId ++ " (" ++ interpOpt intent.discountCode ++ ")") }

/-- The escrow subsidy leg (step 5b): CREDIT `discountAmount` to
`PLATFORM_ESCROW` under `reference + "_DISC" + "_ESCROW"`. -/
def subsidyParams (intent : PaymentIntent) : AppendEntryParams :=
  { reference := intent.reference ++ "_DISC" ++ "_ESCROW",
    orderId := some intent.orderId,
    accountId := PLATFORM_ESCROW, entryType := .CREDIT,
    amount := intent.discountAmount,
    description := some ("Discount subsidy credit for order " ++
      intent.orderId) }

/-- `SettlementService.settlePayment`, the single serializable
transaction: intent lookup, idempotent already-settled return (the
`startsWith` query on the reference), `CONFIRMING` gate, the one or
three `appendEntry` legs, and the status update to `SETTLED`.
`.error` models the transaction rolling back. -/
def settlePayment (sha : String → String) (db : DB) (intentId : String) :
    Except SettleError (SettlementResult × DB) :=
  match db.intents.find? (fun i => i.id == intentId) with
  | none => .error (.intentNotFound intentId)
  | some intent =>
    if intent.status = IntentStatus.SETTLED then
      let existingEntries := db.entries.filter (fun e =>
        strStartsWith e.reference intent.reference)
      .ok ({ success := true, paymentIntentId := intentId,
             reference := intent.reference,
             ledgerEntries := existingEntries.map toResult,
             message := "Payment already settled" }, db)
    else if intent.status ≠ IntentStatus.CONFIRMING then
      .error (.invalidStatusForSettlement intent.status)
    else
      match appendEntry sha db (primaryParams intent) with
      | .error e => .error (.ledger e)
      | .ok (primaryEntry, db1) =>
        let finish (db' : DB) (legs : List AppendEntryResult) :
            SettlementResult × DB :=
          ({ success := true, paymentIntentId := intentId,
             reference := intent.reference, ledgerEntries := legs,
             message := "Payment settled successfully" },
           { db' with intents := db'.intents.map (fun i =>
               if i.id == intentId then
                 { i with status := IntentStatus.SETTLED }
               else i) })
        if 0 < intent.discountAmount then
          match appendEntry sha db1 (discountParams intent) with
          | .error e => .error (.ledger e)
          | .ok (marketingDebit, db2) =>
            match appendEntry sha db2 (subsidyParams intent) with
            | .error e => .error (.ledger e)
            | .ok (subsidyCredit, db3) =>
              .ok (finish db3 [primaryEntry, marketingDebit, subsidyCredit])
        else
          .ok (finish db1 [primaryEntry])

/-- The store state after a `settlePayment` call: committed on success,
unchanged on rollback. -/
def settleRun (sha : String → String) (db : DB) (intentId : String) : DB :=
  match settlePayment sha db intentId with
  | .ok (_, db') => db'
  | .error _ => db

-- ---------------------------------------------------------------------
-- Webhook Ingress (`webhook.service.ts`, `libs/security`)
-- ---------------------------------------------------------------------

/-- The process environment the pipeline reads.  An unset variable is
modelled as the empty string (JS `process.env.X || ''`). -/
structure Env where
  nodeEnv : String
  flutterwaveSecretHash : String

/-- `verifyFlutterwaveSignature` from `libs/security`: the stub accepts
everything in development and rejects everything otherwise (the
`signature` and `secretHash` arguments are read but unused). -/
def verifyFlutterwaveSignature (env : Env) (_payload _signature
    _secretHash : String) : Bool :=
  if env.nodeEnv = "development" then true else false

/-- JS `a || b` on a possibly-absent string (empty strings are falsy). -/
def jsOrStr (a : Option String) (b : String) : String :=
  match a with
  | some s => if s = "" then b else s
  | none => b

/-- Header lookup (`headers['k']`). -/
def getHeader (headers : List (String × String)) (k : String) :
    Option String :=
  (headers.find? (fun h => h.1 == k)).map (·.2)

/-- `WebhookService.verifySignature`: dispatch by provider; flutterwave
reads `verif-hash` or `x-flw-signature`; unknown providers fall back to
`NODE_ENV === 'development'`. -/
def verifySignature (env : Env) (provider : String) (rawBody : String)
    (headers : List (String × String)) : Bool :=
  if provider = "flutterwave" then
    let signature := jsOrStr (getHeader headers "verif-hash")
      (jsOrStr (getHeader headers "x-flw-signature") "")
    let secretHash := env.flutterwaveSecretHash
    verifyFlutterwaveSignature env rawBody signature secretHash
  else
    env.nodeEnv = "development"

/-- `WebhookPayload` from `webhook.service.ts` (the fields the pipeline
reads; the stored JSON payload body is irrelevant to control flow and
omitted). -/
structure WebhookPayload where
  provider : String
  providerEventId : String
  reference : Option String := none
  rawBody : String
  headers : List (String × String)

/-- `WebhookResult` from `webhook.service.ts`. -/
structure WebhookResult where
  id : Nat
  status : WebhookStatus
  isDuplicate : Bool
  message : String
deriving DecidableEq, Repr

/-- Point update of one inbox row (`webhookInbox.update({where: id})`). -/
def updateWebhook (db : DB) (id : Nat)
    (f : WebhookInboxEntry → WebhookInboxEntry) : DB :=
  { db with webhooks := db.webhooks.map (fun w =>
      if w.id == id then f w else w) }

/-- `WebhookService.triggerSettlement`: in the source this is a logging
stub (`TODO: Call settlement-service`); it performs no store writes,
whether or not a reference is present. -/
def triggerSettlement (db : DB) (_reference : Option String)
    (_webhookId : Nat) : DB :=
  db

/-- `WebhookService.processWebhook`: dedup on
`(provider, providerEventId)` (marking the pre-existing row
`DUPLICATE`), insert as `RECEIVED`, signature verification (`FAILED` on
rejection), `VERIFIED`, the settlement-trigger stub, then `PROCESSED`
unconditionally. -/
def processWebhook (env : Env) (db : DB) (p : WebhookPayload) :
    WebhookResult × DB :=
  match db.webhooks.find? (fun w =>
    w.provider == p.provider && w.providerEventId == p.providerEventId) with
  | some existing =>
    let db1 :=
      if existing.status ≠ WebhookStatus.DUPLICATE then
        updateWebhook db existing.id
          (fun w => { w with status := WebhookStatus.DUPLICATE })
      else db
    ({ id := existing.id, status := WebhookStatus.DUPLICATE,
       isDuplicate := true, message := "Webhook already processed" }, db1)
  | none =>
    let wid := db.nextWebhookId
    let webhook : WebhookInboxEntry :=
      { id := wid, provider := p.provider,
        providerEventId := p.providerEventId, reference := p.reference,
        status := WebhookStatus.RECEIVED }
    let db1 := { db with webhooks := db.webhooks ++ [webhook],
                         nextWebhookId := wid + 1 }
    let isValid := verifySignature env p.provider p.rawBody p.headers
    if !isValid then
      let db2 := updateWebhook db1 wid (fun w =>
        { w with status := WebhookStatus.FAILED,
                 errorMessage := some "Signature verification failed",
                 processedAtSet := true })
      ({ id := wid, status := WebhookStatus.FAILED, isDuplicate := false,
         message := "Signature verification failed" }, db2)
    else
      let db2 := updateWebhook db1 wid (fun w =>
        { w with status := WebhookStatus.VERIFIED,
                 processedAtSet := true })
      let db3 := triggerSettlement db2 p.reference wid
      let db4 := updateWebhook db3 wid (fun w =>
        { w with status := WebhookStatus.PROCESSED })
      ({ id := wid, status := WebhookStatus.PROCESSED,
         isDuplicate := false,
         message := "Webhook processed successfully" }, db4)

-- ---------------------------------------------------------------------
-- Payment Intent Lifecycle (`payment-intent.service.ts`,
-- `libs/idempotency`)
-- ---------------------------------------------------------------------

/-- `generatePaymentReference` from `libs/idempotency`. -/
def generatePaymentReference (orderId : String) : String :=
  "PAYMENT_" ++ orderId

/-- The `BadRequestException` codes of `validateInvariants`. -/
inductive CreateError where
  | INVALID_AMOUNTS
  | INVALID_AMOUNT
  | DISCOUNT_CODE_REQUIRED
  | INVALID_DISCOUNT
deriving DecidableEq, Repr

/-- JS falsiness of an optional string (`!discountCode`): absent or
empty. -/
def isFalsyStr : Option String → Bool
  | none => true
  | some s => s == ""

/-- `PaymentIntentService.validateInvariants`, in the source's check
order. -/
def validateInvariants (amount originalAmount discountAmount : Int)
    (discountCode : Option String) : Except CreateError Unit :=
  if originalAmount < amount then .error .INVALID_AMOUNTS
  else if amount ≤ 0 then .error .INVALID_AMOUNT
  else if 0 < discountAmount ∧ isFalsyStr discountCode then
    .error .DISCOUNT_CODE_REQUIRED
  else if discountAmount < 0 then .error .INVALID_DISCOUNT
  else .ok ()

/-- `CreatePaymentIntentDto` (amounts already parsed to scale-4
decimals). -/
structure CreatePaymentIntentDto where
  orderId : String
  amount : Int
  originalAmount : Int
  discountCode : Option String := none
  provider : String
  currency : Option String := none

/-- `PaymentIntentService.create`: parse amounts, derive
`discountAmount`, validate the invariants, derive the reference, probe
for an existing intent (idempotency), else insert a `PENDING` intent.
`newId` models the store's opaque id generation. -/
def createPaymentIntent (db : DB) (dto : CreatePaymentIntentDto)
    (newId : String) : Except CreateError (PaymentIntent × DB) :=
  let amount := dto.amount
  let originalAmount := dto.originalAmount
  let discountAmount := originalAmount - amount
  match validateInvariants amount originalAmount discountAmount
      dto.discountCode with
  | .error e => .error e
  | .ok _ =>
    let reference := generatePaymentReference dto.orderId
    match db.intents.find? (fun i => i.reference == reference) with
    | some existing => .ok (existing, db)
    | none =>
      let intent : PaymentIntent :=
        { id := newId, reference := reference, orderId := dto.orderId,
          amount := amount, originalAmount := originalAmount,
          discountAmount := discountAmount,
          discountCode := dto.discountCode,
          status := IntentStatus.PENDING }
      .ok (intent, { db with intents := db.intents ++ [intent] })

-- ---------------------------------------------------------------------
-- Seed (`libs/db/prisma/seed.ts`)
-- ---------------------------------------------------------------------

/-- The genesis ledger entry the seed writes for `MARKETING_WALLET`:
`walletSeq = 1`, `prevHash = null`, amount string `"1000000.0000"`,
hashed with the same `computeEntryHash`. -/
def genesisMarketingEntry (sha : String → String) : LedgerEntry :=
  { id := 0, accountId := MARKETING_WALLET, walletSeq := 1,
    reference := "GENESIS_MARKETING_WALLET",
    entryType := .CREDIT, amount := 10000000000,
    description := some
      "Marketing subsidy wallet for discount campaigns - Initial funding",
    prevHash := none,
    entryHash := computeEntryHash sha none MARKETING_WALLET 1
      "GENESIS_MARKETING_WALLET" "CREDIT" "1000000.0000"
      (some
        "Marketing subsidy wallet for discount campaigns - Initial funding") }

/-- The store after `seed.ts` on an empty database: the three system
balance rows and the single genesis entry on `MARKETING_WALLET`. -/
def seededDB (sha : String → String) : DB :=
  { entries := [genesisMarketingEntry sha]
    balances :=
      [{ accountId := MARKETING_WALLET, balance := 10000000000,
         currency := "NGN", lastEntrySeq := 1 },
       { accountId := PLATFORM_ESCROW, balance := 0, currency := "NGN",
         lastEntrySeq := 0 },
       { accountId := "LEGACY_MIGRATION_WALLET", balance := 0,
         currency := "NGN", lastEntrySeq := 0 }]
    intents := []
    webhooks := []
    nextEntryId := 1
    nextWebhookId := 0 }

-- ---------------------------------------------------------------------
-- Ordering infrastructure for the per-account chains
-- ---------------------------------------------------------------------

/-- Order of entries by `walletSeq`. -/
def wseqLE (a b : LedgerEntry) : Prop := a.walletSeq ≤ b.walletSeq

theorem mem_insertBySeq {x e : LedgerEntry} {l : List LedgerEntry} :
    x ∈ insertBySeq e l ↔ x = e ∨ x ∈ l := by
  induction l with
  | nil => simp [insertBySeq]
  | cons f fs ih =>
    by_cases h : e.walletSeq ≤ f.walletSeq
    · simp [insertBySeq, h]
    · simp [insertBySeq, h, ih]
      tauto

theorem mem_sortBySeq {x : LedgerEntry} {l : List LedgerEntry} :
    x ∈ sortBySeq l ↔ x ∈ l := by
  induction l with
  | nil => simp [sortBySeq]
  | cons e es ih => simp [sortBySeq, mem_insertBySeq, ih]

theorem pairwise_insertBySeq {e : LedgerEntry} {l : List LedgerEntry}
    (h : l.Pairwise wseqLE) : (insertBySeq e l).Pairwise wseqLE := by
  induction l with
  | nil => simp [insertBySeq, List.pairwise_cons]
  | cons f fs ih =>
    rcases List.pairwise_cons.mp h with ⟨hf, hfs⟩
    by_cases hle : e.walletSeq ≤ f.walletSeq
    · rw [insertBySeq, if_pos hle]
      refine List.pairwise_cons.mpr ⟨?_, h⟩
      intro y hy
      rcases List.mem_cons.mp hy with rfl | hy
      · exact hle
      · exact le_trans hle (hf y hy)
    · rw [insertBySeq, if_neg hle]
      refine List.pairwise_cons.mpr ⟨?_, ih hfs⟩
      intro y hy
      rcases mem_insertBySeq.mp hy with rfl | hy
      · exact le_of_not_le hle
      · exact hf y hy

theorem pairwise_sortBySeq (l : List LedgerEntry) :
    (sortBySeq l).Pairwise wseqLE := by
  induction l with
  | nil => simp [sortBySeq]
  | cons e es ih => exact pairwise_insertBySeq ih

theorem lastOf_cons_cons (e f : LedgerEntry) (fs : List LedgerEntry) :
    lastOf (e :: f :: fs) = lastOf (f :: fs) := rfl

theorem lastOf_cons_ne_none (e : LedgerEntry) (es : List LedgerEntry) :
    lastOf (e :: es) ≠ none := by
  induction es generalizing e with
  | nil => simp [lastOf]
  | cons f fs ih =>
    rw [lastOf_cons_cons]
    exact ih f

theorem lastOf_eq_none {l : List LedgerEntry} :
    lastOf l = none ↔ l = [] := by
  cases l with
  | nil => simp [lastOf]
  | cons e es =>
    simp only [iff_false, reduceCtorEq]
    exact fun h => lastOf_cons_ne_none e es h

theorem lastOf_append_singleton (l : List LedgerEntry) (e : LedgerEntry) :
    lastOf (l ++ [e]) = some e := by
  induction l with
  | nil => rfl
  | cons f fs ih =>
    cases fs with
    | nil => rfl
    | cons g gs => simpa [lastOf] using ih

theorem lastOf_mem {l : List LedgerEntry} {m : LedgerEntry}
    (h : lastOf l = some m) : m ∈ l := by
  induction l with
  | nil => simp [lastOf] at h
  | cons e es ih =>
    cases es with
    | nil =>
      simp only [lastOf, Option.some.injEq] at h
      simp [h]
    | cons f fs =>
      rw [lastOf_cons_cons] at h
      exact List.mem_cons_of_mem _ (ih h)

theorem lastOf_max {l : List LedgerEntry} {m : LedgerEntry}
    (hs : l.Pairwise wseqLE) (h : lastOf l = some m) :
    ∀ x ∈ l, x.walletSeq ≤ m.walletSeq := by
  induction l with
  | nil => simp
  | cons e es ih =>
    rcases List.pairwise_cons.mp hs with ⟨he, hes⟩
    cases es with
    | nil =>
      simp only [lastOf, Option.some.injEq] at h
      intro x hx
      rcases List.mem_cons.mp hx with rfl | hx
      · rw [h]
      · simp at hx
    | cons f fs =>
      rw [lastOf_cons_cons] at h
      intro x hx
      rcases List.mem_cons.mp hx with rfl | hx
      · have hm : m ∈ f :: fs := lastOf_mem h
        exact he m hm
      · exact ih hes h x hx

theorem insertBySeq_append_big {x e : LedgerEntry}
    {s : List LedgerEntry} (hx : x.walletSeq ≤ e.walletSeq) :
    insertBySeq x (s ++ [e]) = insertBySeq x s ++ [e] := by
  induction s with
  | nil => simp [insertBySeq, hx]
  | cons y ys ih =>
    by_cases h : x.walletSeq ≤ y.walletSeq
    · simp [insertBySeq, h]
    · simp [insertBySeq, h, ih]

theorem sortBySeq_append_big {l : List LedgerEntry} {e : LedgerEntry}
    (h : ∀ f ∈ l, f.walletSeq ≤ e.walletSeq) :
    sortBySeq (l ++ [e]) = sortBySeq l ++ [e] := by
  induction l with
  | nil => simp [sortBySeq, insertBySeq]
  | cons x xs ih =>
    have hx : x.walletSeq ≤ e.walletSeq := h x (by simp)
    simp only [List.cons_append, sortBySeq, List.append_eq]
    rw [ih (fun f hf => h f (List.mem_cons_of_mem _ hf)),
      insertBySeq_append_big hx]

-- ---------------------------------------------------------------------
-- The hash-chain invariant
-- ---------------------------------------------------------------------

/-- `goodChain sha ph k l`: the entries `l`, in order, carry the dense
sequence numbers `k, k+1, …`, each links to its predecessor's hash
(starting from `ph`), and each stored `entryHash` is the canonical hash
of the entry's own stored fields. -/
def goodChain (sha : String → String) :
    Option String → Nat → List LedgerEntry → Prop
  | _, _, [] => True
  | ph, k, e :: es =>
    e.prevHash = ph ∧ e.walletSeq = k ∧
    e.entryHash = computeEntryHash sha ph e.accountId k e.reference
      e.entryType.toStr (decimalToString e.amount) e.description ∧
    goodChain sha (some e.entryHash) (k + 1) es

/-- The hash a successor of the chain `l` (whose origin hash is `ph`)
must link to. -/
def chainTip : Option String → List LedgerEntry → Option String
  | ph, [] => ph
  | _, e :: es => chainTip (some e.entryHash) es

theorem chainTip_eq_lastOf (ph : Option String) (l : List LedgerEntry) :
    chainTip ph l = match lastOf l with
                    | none => ph
                    | some m => some m.entryHash := by
  induction l generalizing ph with
  | nil => rfl
  | cons e es ih =>
    cases es with
    | nil => rfl
    | cons f fs =>
      rw [lastOf_cons_cons]
      cases hm : lastOf (f :: fs) with
      | none => exact absurd hm (lastOf_cons_ne_none f fs)
      | some m =>
        have := ih (some e.entryHash)
        rw [hm] at this
        exact this

theorem goodChain_hashOk {sha : String → String} :
    ∀ {ph : Option String} {k : Nat} {l : List LedgerEntry},
    goodChain sha ph k l → ∀ e ∈ l,
      e.entryHash = computeEntryHash sha e.prevHash e.accountId
        e.walletSeq e.reference e.entryType.toStr (decimalToString e.amount)
        e.description := by
  intro ph k l
  induction l generalizing ph k with
  | nil => intro _ e he; simp at he
  | cons f fs ih =>
    intro h e he
    rcases h with ⟨hph, hseq, hhash, hrest⟩
    rcases List.mem_cons.mp he with rfl | he
    · rw [hph, hseq]; exact hhash
    · exact ih hrest e he

theorem goodChain_verifyScan {sha : String → String} (a : String)
    (d : Nat) :
    ∀ {ph : Option String} {k : Nat} {l : List LedgerEntry},
    goodChain sha ph k l → verifyScan sha a d ph l = none := by
  intro ph k l
  induction l generalizing ph k with
  | nil => intro _; rfl
  | cons e es ih =>
    intro h
    rcases h with ⟨hph, hseq, hhash, hrest⟩
    have hh : computeEntryHash sha ph e.accountId e.walletSeq e.reference
        e.entryType.toStr (decimalToString e.amount) e.description =
        e.entryHash := by rw [hseq]; exact hhash.symm
    simpa [verifyScan, hh, hph] using ih hrest

theorem goodChain_lastOf {sha : String → String} :
    ∀ {ph : Option String} {k : Nat} {l : List LedgerEntry},
    goodChain sha ph k l → ∀ {m : LedgerEntry}, lastOf l = some m →
      m.walletSeq + 1 = k + l.length := by
  intro ph k l
  induction l generalizing ph k with
  | nil => intro _ m hm; simp [lastOf] at hm
  | cons e es ih =>
    intro h m hm
    rcases h with ⟨_, hseq, _, hrest⟩
    cases es with
    | nil =>
      simp only [lastOf, Option.some.injEq] at hm
      subst hm
      simp [hseq]
    | cons f fs =>
      rw [lastOf_cons_cons] at hm
      have := ih hrest hm
      simp only [List.length_cons] at this ⊢
      omega

theorem goodChain_snoc {sha : String → String} :
    ∀ {ph : Option String} {k : Nat} {l : List LedgerEntry}
      {e : LedgerEntry},
    goodChain sha ph k l →
    e.prevHash = chainTip ph l →
    e.walletSeq = k + l.length →
    e.entryHash = computeEntryHash sha e.prevHash e.accountId
      e.walletSeq e.reference e.entryType.toStr (decimalToString e.amount)
      e.description →
    goodChain sha ph k (l ++ [e]) := by
  intro ph k l
  induction l generalizing ph k with
  | nil =>
    intro e _ hph hseq hhash
    have hph' : e.prevHash = ph := hph
    have hseq' : e.walletSeq = k := by simpa using hseq
    refine ⟨hph', hseq', ?_, trivial⟩
    rw [hhash, hph', hseq']
  | cons f fs ih =>
    intro e h hph hseq hhash
    rcases h with ⟨hf1, hf2, hf3, hrest⟩
    refine ⟨hf1, hf2, hf3, ?_⟩
    refine ih hrest ?_ ?_ hhash
    · exact hph
    · simp only [List.length_cons] at hseq
      omega

/-- All per-account chains of the store verify: the global invariant
preserved by `appendEntry`. -/
def GoodLedger (sha : String → String) (db : DB) : Prop :=
  ∀ a, goodChain sha none 1 (entriesFor db a)

theorem newEntry_accountId (sha : String → String) (db : DB)
    (p : AppendEntryParams) : (newEntry sha db p).accountId = p.accountId :=
  rfl

theorem newEntry_walletSeq (sha : String → String) (db : DB)
    (p : AppendEntryParams) :
    (newEntry sha db p).walletSeq = nextSeq db p.accountId := rfl

theorem newEntry_prevHash (sha : String → String) (db : DB)
    (p : AppendEntryParams) :
    (newEntry sha db p).prevHash =
      (lastEntryFor db p.accountId).map (·.entryHash) := rfl

theorem newEntry_hashOk (sha : String → String) (db : DB)
    (p : AppendEntryParams) :
    (newEntry sha db p).entryHash =
      computeEntryHash sha (newEntry sha db p).prevHash
        (newEntry sha db p).accountId (newEntry sha db p).walletSeq
        (newEntry sha db p).reference (newEntry sha db p).entryType.toStr
        (decimalToString (newEntry sha db p).amount)
        (newEntry sha db p).description := rfl

/-- A committed `appendEntry` either hit the idempotency probe and left
the store unchanged, or appended exactly the constructed entry. -/
theorem appendEntry_ok_entries {sha : String → String} {db : DB}
    {p : AppendEntryParams} {r : AppendEntryResult} {db' : DB}
    (h : appendEntry sha db p = .ok (r, db')) :
    db' = db ∨ db'.entries = db.entries ++ [newEntry sha db p] := by
  unfold appendEntry at h
  cases hfind : findEntryByAccountRef db p.accountId p.reference with
  | some e =>
    rw [hfind] at h
    left
    simp only [Except.ok.injEq, Prod.mk.injEq] at h
    exact h.2.symm
  | none =>
    rw [hfind] at h
    right
    cases hbal : findBalance db p.accountId with
    | some row =>
      rw [hbal] at h
      simp only at h
      split at h
      · exact absurd h (by simp)
      · simp only [Except.ok.injEq, Prod.mk.injEq] at h
        rw [← h.2]
        rfl
    | none =>
      rw [hbal] at h
      simp only at h
      split at h
      · exact absurd h (by simp)
      · simp only [Except.ok.injEq, Prod.mk.injEq] at h
        rw [← h.2]

/-- `appendEntry` preserves the hash-chain invariant on every account. -/
theorem GoodLedger_append {sha : String → String} {db : DB}
    {p : AppendEntryParams} {r : AppendEntryResult} {db' : DB}
    (hg : GoodLedger sha db) (h : appendEntry sha db p = .ok (r, db')) :
    GoodLedger sha db' := by
  rcases appendEntry_ok_entries h with rfl | hent
  · exact hg
  · intro a
    by_cases ha : p.accountId = a
    · subst ha
      have hfil : db'.entries.filter
          (fun e => e.accountId == p.accountId) =
          db.entries.filter (fun e => e.accountId == p.accountId) ++
            [newEntry sha db p] := by
        rw [hent, List.filter_append]
        simp [newEntry_accountId]
      have hgood := hg p.accountId
      have hmax : ∀ f ∈ db.entries.filter
          (fun e => e.accountId == p.accountId),
          f.walletSeq ≤ (newEntry sha db p).walletSeq := by
        intro f hf
        have hfl : f ∈ entriesFor db p.accountId := mem_sortBySeq.mpr hf
        rw [newEntry_walletSeq]
        cases hm : lastOf (entriesFor db p.accountId) with
        | none =>
          rw [lastOf_eq_none.mp hm] at hfl
          simp at hfl
        | some m =>
          have h1 : nextSeq db p.accountId = m.walletSeq + 1 := by
            unfold nextSeq lastEntryFor
            rw [hm]
          have h2 := lastOf_max (pairwise_sortBySeq _) hm f hfl
          omega
      have hsort : entriesFor db' p.accountId =
          entriesFor db p.accountId ++ [newEntry sha db p] := by
        unfold entriesFor
        rw [hfil, sortBySeq_append_big hmax]
      rw [hsort]
      refine goodChain_snoc hgood ?_ ?_ (newEntry_hashOk sha db p)
      · rw [newEntry_prevHash, chainTip_eq_lastOf]
        unfold lastEntryFor
        cases lastOf (entriesFor db p.accountId) <;> rfl
      · rw [newEntry_walletSeq]
        cases hm : lastOf (entriesFor db p.accountId) with
        | none =>
          have he : entriesFor db p.accountId = [] := lastOf_eq_none.mp hm
          have h1 : nextSeq db p.accountId = 1 := by
            unfold nextSeq lastEntryFor
            rw [hm]
          rw [h1, he]
          rfl
        | some m =>
          have h1 : nextSeq db p.accountId = m.walletSeq + 1 := by
            unfold nextSeq lastEntryFor
            rw [hm]
          have h2 := goodChain_lastOf hgood hm
          omega
    · have hfil : db'.entries.filter (fun e => e.accountId == a) =
          db.entries.filter (fun e => e.accountId == a) := by
        rw [hent, List.filter_append]
        have : ((newEntry sha db p).accountId == a) = false := by
          rw [newEntry_accountId]
          exact beq_eq_false_iff_ne.mpr ha
        simp [this]
      have : entriesFor db' a = entriesFor db a := by
        unfold entriesFor
        rw [hfil]
      rw [this]
      exact hg a

/-- The ledgers reachable through `appendEntry` alone: any store
without entries, `appendEntry` steps, and steps that do not touch the
`LedgerEntry` table.  (The seeded store is *not* among them: the seed
hashes the scale-4 literal `"1000000.0000"`, which `appendEntry` and
`verifyChain` — both serializing through `Decimal.toString` — never
produce, see the C1 finding below.) -/
inductive LedgerBuilt (sha : String → String) : DB → Prop where
  | emptyLedger {db : DB} : db.entries = [] → LedgerBuilt sha db
  | append {db : DB} {p : AppendEntryParams} {r : AppendEntryResult}
      {db' : DB} : LedgerBuilt sha db →
      appendEntry sha db p = .ok (r, db') → LedgerBuilt sha db'
  | sameEntries {db db' : DB} : LedgerBuilt sha db →
      db'.entries = db.entries → LedgerBuilt sha db'

theorem LedgerBuilt_good {sha : String → String} {db : DB}
    (h : LedgerBuilt sha db) : GoodLedger sha db := by
  induction h with
  | emptyLedger he =>
    intro a
    unfold entriesFor
    rw [he]
    trivial
  | append _ happ ih => exact GoodLedger_append ih happ
  | sameEntries _ he ih =>
    intro a
    unfold entriesFor
    rw [he]
    exact ih a

/-- On an account whose chain satisfies the invariant, `verifyChain`
over the full range reports success. -/
theorem verifyChain_of_goodChain {sha : String → String} {db : DB}
    {a : String} (h : goodChain sha none 1 (entriesFor db a))
    (hne : entriesFor db a ≠ []) :
    verifyChain sha db a none none =
      { accountId := a, valid := true,
        entriesVerified := (entriesFor db a).length,
        message := "Chain integrity verified" } := by
  unfold verifyChain
  simp only [Bool.and_true]
  rw [show sortBySeq (db.entries.filter (fun e => e.accountId == a)) =
    entriesFor db a from rfl]
  rw [if_neg (by simp [List.isEmpty_iff, hne])]
  rw [show ((none : Option Nat).getD 1) = 1 from rfl]
  rw [goodChain_verifyScan a 1 h]

/-- A concrete stand-in for the SHA-256 hexdigest, used to instantiate
the hash-parametric theorems on concrete stores. -/
def hashFn (s : String) : String := "sha256<" ++ s ++ ">"

/-- Supporting fact (not the claim): on ledgers produced by
`appendEntry` alone — without the seeded genesis entry — append and
verify serialize amounts the same way (`Decimal.toString`), so every
entry re-hashes to its stored `entryHash` from its stored fields with
the *normalized* amount string, and `verifyChain` succeeds. -/
theorem appendOnly_chain_verifies (sha : String → String) (db : DB)
    (a : String) (hbuilt : LedgerBuilt sha db) :
    (∀ e ∈ entriesFor db a,
      e.entryHash = computeEntryHash sha e.prevHash e.accountId
        e.walletSeq e.reference e.entryType.toStr
        (decimalToString e.amount) e.description) ∧
    (entriesFor db a ≠ [] →
      verifyChain sha db a none none =
        { accountId := a, valid := true,
          entriesVerified := (entriesFor db a).length,
          message := "Chain integrity verified" }) := by
  have hg := LedgerBuilt_good hbuilt
  exact ⟨goodChain_hashOk (hg a),
    fun hne => verifyChain_of_goodChain (hg a) hne⟩

/-- The empty store. -/
def dbEmpty : DB := {}

/-- A settlement-style credit of 8000.0000 on a fresh account. -/
def pC1 : AppendEntryParams :=
  { reference := "PAYMENT_O1", accountId := PLATFORM_ESCROW,
    entryType := .CREDIT, amount := 80000000 }

set_option maxRecDepth 8192 in
/-- C1 fails on the code.  The seed hashes the scale-4 literal
`"1000000.0000"` into the genesis `entryHash`, but `verifyChain`
re-hashes `entry.amount.toString()` — decimal.js normalizes, dropping
trailing fractional zeros — so on a freshly seeded, untampered store
`verifyChain("MARKETING_WALLET")` reports the chain broken at
sequence 1.  And `appendEntry` hashes the normalized string (`"8000"`,
not `"8000.0000"`), so the stored `entryHash` of a settlement-written
entry differs from the claim's scale-4 recomputation over the same
stored fields. -/
theorem scale4_hash_divergence :
    (verifyChain hashFn (seededDB hashFn) MARKETING_WALLET none
      none).valid = false ∧
    (verifyChain hashFn (seededDB hashFn) MARKETING_WALLET none
      none).brokenAtSeq = some 1 ∧
    (verifyChain hashFn (seededDB hashFn) MARKETING_WALLET none
      none).message = "Chain broken at sequence 1" ∧
    (genesisMarketingEntry hashFn).entryHash =
      computeEntryHash hashFn none MARKETING_WALLET 1
        "GENESIS_MARKETING_WALLET" "CREDIT" (decToString 10000000000)
        (some
          "Marketing subsidy wallet for discount campaigns - Initial funding") ∧
    decimalToString 10000000000 ≠ decToString 10000000000 ∧
    (newEntry hashFn dbEmpty pC1).entryHash ≠
      computeEntryHash hashFn (newEntry hashFn dbEmpty pC1).prevHash
        (newEntry hashFn dbEmpty pC1).accountId
        (newEntry hashFn dbEmpty pC1).walletSeq
        (newEntry hashFn dbEmpty pC1).reference
        (newEntry hashFn dbEmpty pC1).entryType.toStr
        (decToString (newEntry hashFn dbEmpty pC1).amount)
        (newEntry hashFn dbEmpty pC1).description := by
  decide

-- ---------------------------------------------------------------------
-- appendEntry case lemmas
-- ---------------------------------------------------------------------

/-- The committed store after a fresh append on an account whose cache
row is `row`: the entry inserted and the row updated. -/
def afterAppend (sha : String → String) (db : DB) (p : AppendEntryParams)
    (row : BalanceRow) : DB :=
  updateBalanceRow
    { db with entries := db.entries ++ [newEntry sha db p],
              nextEntryId := db.nextEntryId + 1 }
    p.accountId (row.balance + balanceChange p)
    (newEntry sha db p).walletSeq

/-- Fresh reference, cache row present, resulting balance non-negative:
`appendEntry` inserts the constructed entry and updates the row. -/
theorem appendEntry_fresh_cache_ok {s : String → String} {db : DB}
    {p : AppendEntryParams} {row : BalanceRow}
    (hfresh : findEntryByAccountRef db p.accountId p.reference = none)
    (hrow : findBalance db p.accountId = some row)
    (hbal : 0 ≤ row.balance + balanceChange p) :
    appendEntry s db p = .ok (toResult (newEntry s db p),
      afterAppend s db p row) := by
  unfold appendEntry afterAppend
  simp only [hfresh, hrow]
  rw [if_neg (not_lt.mpr hbal)]

/-- Fresh reference, cache row present, debit overdraws: the
`Insufficient balance` error (the transaction rolls back). -/
theorem appendEntry_insufficient {s : String → String} {db : DB}
    {p : AppendEntryParams} {row : BalanceRow}
    (hfresh : findEntryByAccountRef db p.accountId p.reference = none)
    (hrow : findBalance db p.accountId = some row)
    (hneg : row.balance + balanceChange p < 0) :
    appendEntry s db p =
      .error (.insufficientBalance p.accountId row.balance
        (decimalToString p.amount)) := by
  unfold appendEntry
  simp only [hfresh, hrow]
  rw [if_pos hneg]

/-- Fresh reference, no cache row, debit: the
`Cannot debit non-existent wallet` error. -/
theorem appendEntry_debit_missing {s : String → String} {db : DB}
    {p : AppendEntryParams}
    (hfresh : findEntryByAccountRef db p.accountId p.reference = none)
    (hnorow : findBalance db p.accountId = none)
    (hdeb : p.entryType = .DEBIT) :
    appendEntry s db p =
      .error (.debitOnNonExistentWallet p.accountId) := by
  unfold appendEntry
  simp only [hfresh, hnorow]
  rw [if_pos hdeb]

-- ---------------------------------------------------------------------
-- C5: append idempotency
-- ---------------------------------------------------------------------

/-- C5: when an entry with the same `(accountId, reference)` already
exists, `appendEntry` returns that stored entry unchanged (same id,
walletSeq, amount, entryHash, prevHash) and leaves the store — entries
and balance cache — untouched. -/
theorem appendEntry_idempotent (sha : String → String) (db : DB)
    (p : AppendEntryParams) (e : LedgerEntry)
    (h : findEntryByAccountRef db p.accountId p.reference = some e) :
    appendEntry sha db p = .ok (toResult e, db) := by
  unfold appendEntry
  rw [h]

/-- A one-entry store used to witness C5. -/
def entC5 : LedgerEntry :=
  { id := 7, accountId := "ACC", walletSeq := 1, reference := "R1",
    entryType := .CREDIT, amount := 10000, entryHash := "h1" }

/-- Store holding `entC5` and its cached balance. -/
def dbC5 : DB :=
  { entries := [entC5],
    balances := [{ accountId := "ACC", balance := 10000,
                   lastEntrySeq := 1 }],
    nextEntryId := 8 }

/-- Witness for C5 on a concrete store holding one entry. -/
theorem appendEntry_idempotent_witness :
    findEntryByAccountRef dbC5 "ACC" "R1" = some entC5 ∧
    appendEntry hashFn dbC5
      { reference := "R1", accountId := "ACC", entryType := .DEBIT,
        amount := 5000 } = .ok (toResult entC5, dbC5) := by
  refine ⟨by decide, ?_⟩
  exact appendEntry_idempotent hashFn dbC5
    { reference := "R1", accountId := "ACC", entryType := .DEBIT,
      amount := 5000 } entC5 (by decide)

-- ---------------------------------------------------------------------
-- Balance-cache lookup after an update
-- ---------------------------------------------------------------------

theorem findBalance_update (db : DB) (a b : String) (v : Int) (s : Nat) :
    findBalance (updateBalanceRow db a v s) b =
      (findBalance db b).map (fun r =>
        if r.accountId == a then
          { r with balance := v, lastEntrySeq := s }
        else r) := by
  unfold findBalance updateBalanceRow
  simp only
  rw [List.find?_map]
  have hpf : ((fun r : BalanceRow => r.accountId == b) ∘ (fun r =>
      if r.accountId == a then
        { r with balance := v, lastEntrySeq := s }
      else r)) = fun r : BalanceRow => r.accountId == b := by
    funext r
    simp only [Function.comp]
    by_cases h : (r.accountId == a) = true
    · rw [if_pos h]
    · rw [if_neg h]
  rw [hpf]

theorem findBalance_update_ne (db : DB) {a b : String} (v : Int) (s : Nat)
    (hne : b ≠ a) :
    findBalance (updateBalanceRow db a v s) b = findBalance db b := by
  rw [findBalance_update]
  cases hf : findBalance db b with
  | none => rfl
  | some r =>
    have hr : (r.accountId == b) = true :=
      List.find?_some (p := fun x : BalanceRow => x.accountId == b)
        (show db.balances.find? (fun x => x.accountId == b) = some r
          from hf)
    have hra : (r.accountId == a) = false := by
      rw [beq_iff_eq] at hr
      exact beq_eq_false_iff_ne.mpr (hr ▸ hne)
    show some (if (r.accountId == a) = true then
      { r with balance := v, lastEntrySeq := s } else r) = some r
    rw [if_neg (by rw [hra]; exact Bool.false_ne_true)]

theorem findBalance_update_self (db : DB) {a : String} (v : Int) (s : Nat)
    {row : BalanceRow} (h : findBalance db a = some row) :
    findBalance (updateBalanceRow db a v s) a =
      some { row with balance := v, lastEntrySeq := s } := by
  rw [findBalance_update, h]
  have hr : (row.accountId == a) = true :=
    List.find?_some (p := fun x : BalanceRow => x.accountId == a)
      (show db.balances.find? (fun x => x.accountId == a) = some row
        from h)
  show some (if (row.accountId == a) = true then
    { row with balance := v, lastEntrySeq := s } else row) =
    some { row with balance := v, lastEntrySeq := s }
  rw [if_pos hr]

theorem find?_single {α : Type} (p : α → Bool) (x : α) :
    [x].find? p = if p x then some x else none := by
  cases h : p x <;> simp [List.find?_cons, h]

theorem findEntryByAccountRef_afterAppend (sha : String → String)
    (db : DB) (p : AppendEntryParams) (row : BalanceRow) (a r : String) :
    findEntryByAccountRef (afterAppend sha db p row) a r =
      ((findEntryByAccountRef db a r).or
        ([newEntry sha db p].find? (fun e =>
          e.accountId == a && e.reference == r))) := by
  unfold findEntryByAccountRef afterAppend updateBalanceRow
  simp only
  exact List.find?_append

theorem findBalance_afterAppend_ne (sha : String → String) (db : DB)
    (p : AppendEntryParams) (row : BalanceRow) {b : String}
    (hne : b ≠ p.accountId) :
    findBalance (afterAppend sha db p row) b = findBalance db b := by
  unfold afterAppend
  rw [findBalance_update_ne _ _ _ hne]
  rfl

theorem findBalance_afterAppend_self (sha : String → String) (db : DB)
    (p : AppendEntryParams) (row : BalanceRow)
    (h : findBalance db p.accountId = some row) :
    findBalance (afterAppend sha db p row) p.accountId =
      some { row with
               balance := row.balance + balanceChange p,
               lastEntrySeq := (newEntry sha db p).walletSeq } := by
  unfold afterAppend
  exact findBalance_update_self _ _ _ h

-- ---------------------------------------------------------------------
-- C4: the debit gate of appendEntry
-- ---------------------------------------------------------------------

/-- C4: for a debit with a fresh reference — if the account's cache row
holds balance `b`, the append succeeds exactly when the debit amount is
at most `b` (leaving balance `b − amount`, hence `0` when they are
equal), a larger debit fails with the insufficient-balance error and the
store is unchanged; if no cache row exists, every debit fails with the
non-existent-wallet error and the store is unchanged. -/
theorem debit_balance_gate (sha : String → String) (db : DB)
    (p : AppendEntryParams) (hdeb : p.entryType = .DEBIT)
    (hfresh : findEntryByAccountRef db p.accountId p.reference = none) :
    (∀ row, findBalance db p.accountId = some row →
      (p.amount ≤ row.balance →
        appendEntry sha db p = .ok (toResult (newEntry sha db p),
          afterAppend sha db p row) ∧
        findBalance (appendRun sha db p) p.accountId =
          some { row with
                   balance := row.balance - p.amount,
                   lastEntrySeq := (newEntry sha db p).walletSeq }) ∧
      (row.balance < p.amount →
        appendEntry sha db p = .error (.insufficientBalance p.accountId
          row.balance (decimalToString p.amount)) ∧
        appendRun sha db p = db)) ∧
    (findBalance db p.accountId = none →
      appendEntry sha db p =
        .error (.debitOnNonExistentWallet p.accountId) ∧
      appendRun sha db p = db) := by
  have hbc : balanceChange p = -p.amount := by
    unfold balanceChange
    rw [hdeb]
  constructor
  · intro row hrow
    constructor
    · intro hle
      have hok := appendEntry_fresh_cache_ok (s := sha)
        hfresh hrow (by rw [hbc]; omega)
      refine ⟨hok, ?_⟩
      simp only [appendRun, hok]
      rw [findBalance_afterAppend_self sha db p row hrow, hbc]
      rw [show row.balance + -p.amount = row.balance - p.amount by omega]
    · intro hlt
      have herr := appendEntry_insufficient (s := sha)
        hfresh hrow (by rw [hbc]; omega)
      refine ⟨herr, ?_⟩
      unfold appendRun
      rw [herr]
  · intro hnorow
    have herr := appendEntry_debit_missing (s := sha)
      hfresh hnorow hdeb
    refine ⟨herr, ?_⟩
    unfold appendRun
    rw [herr]

/-- A fresh-reference debit of the full cached balance of `ACC`. -/
def pC4 : AppendEntryParams :=
  { reference := "R2", accountId := "ACC", entryType := .DEBIT,
    amount := 10000 }

/-- A debit on an account with no balance-cache row. -/
def pC4n : AppendEntryParams :=
  { reference := "R3", accountId := "NOPE", entryType := .DEBIT,
    amount := 100 }

/-- Witness for C4: debiting exactly the cached balance succeeds and
leaves balance 0; a debit on a row-less account fails. -/
theorem debit_balance_gate_witness :
    findBalance (appendRun hashFn dbC5 pC4) "ACC" =
      some { accountId := "ACC", balance := 0, currency := "NGN",
             lastEntrySeq := 2 } ∧
    appendEntry hashFn dbC5 pC4n =
      .error (.debitOnNonExistentWallet "NOPE") := by
  constructor
  · have h := ((debit_balance_gate hashFn dbC5 pC4 rfl (by decide)).1
      { accountId := "ACC", balance := 10000, lastEntrySeq := 1 }
      (by decide)).1 (by decide)
    exact h.2.trans (by decide)
  · exact ((debit_balance_gate hashFn dbC5 pC4n rfl (by decide)).2
      (by decide)).1

-- ---------------------------------------------------------------------
-- Helper lemmas for the settlement proofs
-- ---------------------------------------------------------------------

theorem self_ne_append {s t : String} (ht : t.length ≠ 0) :
    s ≠ s ++ t := by
  intro h
  have := congrArg String.length h
  rw [String.length_append] at this
  omega

theorem findEntry_entries_append {db db' : DB} {l : List LedgerEntry}
    (h : db'.entries = db.entries ++ l) (a r : String) :
    findEntryByAccountRef db' a r =
      ((findEntryByAccountRef db a r).or
        (l.find? (fun e => e.accountId == a && e.reference == r))) := by
  unfold findEntryByAccountRef
  rw [h, List.find?_append]

/-- Appending the constructed entry extends exactly its own account's
ordered chain, and leaves every other account's chain unchanged. -/
theorem entriesFor_append_newEntry {sha : String → String} {db : DB}
    {p : AppendEntryParams} {db' : DB}
    (h : db'.entries = db.entries ++ [newEntry sha db p]) :
    entriesFor db' p.accountId =
      entriesFor db p.accountId ++ [newEntry sha db p] := by
  have hfil : db'.entries.filter (fun e => e.accountId == p.accountId) =
      db.entries.filter (fun e => e.accountId == p.accountId) ++
        [newEntry sha db p] := by
    rw [h, List.filter_append]
    simp [newEntry_accountId]
  have hmax : ∀ f ∈ db.entries.filter
      (fun e => e.accountId == p.accountId),
      f.walletSeq ≤ (newEntry sha db p).walletSeq := by
    intro f hf
    have hfl : f ∈ entriesFor db p.accountId := mem_sortBySeq.mpr hf
    rw [newEntry_walletSeq]
    cases hm : lastOf (entriesFor db p.accountId) with
    | none =>
      rw [lastOf_eq_none.mp hm] at hfl
      simp at hfl
    | some m =>
      have h1 : nextSeq db p.accountId = m.walletSeq + 1 := by
        unfold nextSeq lastEntryFor
        rw [hm]
      have h2 := lastOf_max (pairwise_sortBySeq _) hm f hfl
      omega
  unfold entriesFor
  rw [hfil, sortBySeq_append_big hmax]

theorem entriesFor_append_other {sha : String → String} {db : DB}
    {p : AppendEntryParams} {db' : DB} {a : String}
    (h : db'.entries = db.entries ++ [newEntry sha db p])
    (hne : p.accountId ≠ a) :
    entriesFor db' a = entriesFor db a := by
  unfold entriesFor
  rw [h, List.filter_append]
  have hb : ((newEntry sha db p).accountId == a) = false := by
    rw [newEntry_accountId]
    exact beq_eq_false_iff_ne.mpr hne
  simp [hb]

/-- `nextSeq` after a chain was extended by one entry. -/
theorem nextSeq_after_append {db' db : DB} {a : String} {e : LedgerEntry}
    (h : entriesFor db' a = entriesFor db a ++ [e]) :
    nextSeq db' a = e.walletSeq + 1 := by
  unfold nextSeq lastEntryFor
  rw [h, lastOf_append_singleton]

/-- The intent-table update of step 6 rewrites exactly the settled
intent. -/
theorem findIntent_map_settled (l : List PaymentIntent) (x : String)
    {t : PaymentIntent} (h : l.find? (fun i => i.id == x) = some t) :
    (l.map (fun i => if i.id == x then
        { i with status := IntentStatus.SETTLED } else i)).find?
      (fun i => i.id == x) =
      some { t with status := IntentStatus.SETTLED } := by
  rw [List.find?_map]
  have hpf : ((fun i : PaymentIntent => i.id == x) ∘ (fun i =>
      if i.id == x then { i with status := IntentStatus.SETTLED }
      else i)) = fun i : PaymentIntent => i.id == x := by
    funext i
    simp only [Function.comp]
    by_cases hc : (i.id == x) = true
    · rw [if_pos hc]
    · rw [if_neg hc]
  rw [hpf, h]
  have ht : (t.id == x) = true :=
    List.find?_some (p := fun i : PaymentIntent => i.id == x) h
  show some (if (t.id == x) = true then
    { t with status := IntentStatus.SETTLED } else t) = _
  rw [if_pos ht]

-- ---------------------------------------------------------------------
-- C2: settlement leg count and ordering
-- ---------------------------------------------------------------------

/-- C2: on a CONFIRMING intent (fresh references, seeded wallets with
sufficient marketing funds), `settlePayment` commits and emits exactly
one leg when `discountAmount = 0` — a CREDIT of `intent.amount` to
`PLATFORM_ESCROW` under `intent.reference` — and exactly three legs
when `discountAmount > 0`, in order: that primary credit, a
`MARKETING_WALLET` DEBIT of `discountAmount` under
`reference + "_DISC"`, and an escrow CREDIT of `discountAmount` under
`reference + "_DISC_ESCROW"`; the primary credit's `walletSeq` on
`PLATFORM_ESCROW` is strictly below the subsidy credit's, and the
intent's status becomes SETTLED. -/
theorem settlement_leg_count (sha : String → String) (db : DB)
    (intentId : String) (intent : PaymentIntent) (erow mrow : BalanceRow)
    (hfind : db.intents.find? (fun i => i.id == intentId) = some intent)
    (hst : intent.status = IntentStatus.CONFIRMING)
    (ham : 0 ≤ intent.amount)
    (herow : findBalance db PLATFORM_ESCROW = some erow)
    (he0 : 0 ≤ erow.balance)
    (hmrow : findBalance db MARKETING_WALLET = some mrow)
    (hmbal : intent.discountAmount ≤ mrow.balance)
    (hf1 : findEntryByAccountRef db PLATFORM_ESCROW intent.reference =
      none)
    (hf2 : findEntryByAccountRef db MARKETING_WALLET
      (intent.reference ++ "_DISC") = none)
    (hf3 : findEntryByAccountRef db PLATFORM_ESCROW
      (intent.reference ++ "_DISC_ESCROW") = none) :
    ∃ res db', settlePayment sha db intentId = .ok (res, db') ∧
      res.success = true ∧
      db'.intents.find? (fun i => i.id == intentId) =
        some { intent with status := IntentStatus.SETTLED } ∧
      (intent.discountAmount = 0 → ∃ p,
        res.ledgerEntries = [p] ∧ p.accountId = PLATFORM_ESCROW ∧
        p.entryType = .CREDIT ∧ p.amount = intent.amount ∧
        p.reference = intent.reference) ∧
      (0 < intent.discountAmount → ∃ p d s,
        res.ledgerEntries = [p, d, s] ∧
        p.accountId = PLATFORM_ESCROW ∧ p.entryType = .CREDIT ∧
        p.amount = intent.amount ∧ p.reference = intent.reference ∧
        d.accountId = MARKETING_WALLET ∧ d.entryType = .DEBIT ∧
        d.amount = intent.discountAmount ∧
        d.reference = intent.reference ++ "_DISC" ∧
        s.accountId = PLATFORM_ESCROW ∧ s.entryType = .CREDIT ∧
        s.amount = intent.discountAmount ∧
        s.reference = intent.reference ++ "_DISC_ESCROW" ∧
        p.walletSeq < s.walletSeq) := by
  have hns : ¬(intent.status = IntentStatus.SETTLED) := by
    rw [hst]
    exact fun hc => IntentStatus.noConfusion hc
  have hnc : ¬(intent.status ≠ IntentStatus.CONFIRMING) :=
    fun hc => hc hst
  have hconv : intent.reference ++ "_DISC" ++ "_ESCROW" =
      intent.reference ++ "_DISC_ESCROW" := by
    rw [String.append_assoc]
    rfl
  have hb1 : (0:Int) ≤ erow.balance +
      balanceChange (primaryParams intent) := by
    show (0:Int) ≤ erow.balance + intent.amount
    omega
  have happ1 : appendEntry sha db (primaryParams intent) =
      .ok (toResult (newEntry sha db (primaryParams intent)),
        afterAppend sha db (primaryParams intent) erow) :=
    appendEntry_fresh_cache_ok (p := primaryParams intent) hf1 herow hb1
  unfold settlePayment
  simp only [hfind]
  rw [if_neg hns, if_neg hnc]
  simp only [happ1]
  by_cases hdisc : 0 < intent.discountAmount
  · rw [if_pos hdisc]
    -- second leg: the marketing debit on the post-primary store
    have hprobe2 : findEntryByAccountRef
        (afterAppend sha db (primaryParams intent) erow)
        MARKETING_WALLET (intent.reference ++ "_DISC") = none := by
      rw [findEntryByAccountRef_afterAppend, hf2]
      rfl
    have hbalM : findBalance
        (afterAppend sha db (primaryParams intent) erow)
        MARKETING_WALLET = some mrow := by
      rw [findBalance_afterAppend_ne _ _ _ _
        (show MARKETING_WALLET ≠ PLATFORM_ESCROW from by decide)]
      exact hmrow
    have hb2 : (0:Int) ≤ mrow.balance +
        balanceChange (discountParams intent) := by
      show (0:Int) ≤ mrow.balance + -intent.discountAmount
      omega
    have happ2 : appendEntry sha
        (afterAppend sha db (primaryParams intent) erow)
        (discountParams intent) =
        .ok (toResult (newEntry sha
            (afterAppend sha db (primaryParams intent) erow)
            (discountParams intent)),
          afterAppend sha (afterAppend sha db (primaryParams intent) erow)
            (discountParams intent) mrow) :=
      appendEntry_fresh_cache_ok (p := discountParams intent)
        hprobe2 hbalM hb2
    simp only [happ2]
    -- third leg: the subsidy credit on the post-debit store
    have hpe1 : (((newEntry sha db (primaryParams intent)).accountId ==
        PLATFORM_ESCROW) &&
        ((newEntry sha db (primaryParams intent)).reference ==
          intent.reference ++ "_DISC_ESCROW")) = false := by
      rw [show (newEntry sha db (primaryParams intent)).reference =
        intent.reference from rfl]
      rw [beq_eq_false_iff_ne.mpr
        (self_ne_append (t := "_DISC_ESCROW") (by decide))]
      rw [Bool.and_false]
    have hprobe3 : findEntryByAccountRef
        (afterAppend sha (afterAppend sha db (primaryParams intent) erow)
          (discountParams intent) mrow)
        PLATFORM_ESCROW (intent.reference ++ "_DISC" ++ "_ESCROW") =
        none := by
      rw [hconv, findEntryByAccountRef_afterAppend,
        findEntryByAccountRef_afterAppend, hf3]
      rw [show ([newEntry sha db (primaryParams intent)].find? (fun e =>
        e.accountId == PLATFORM_ESCROW &&
        e.reference == intent.reference ++ "_DISC_ESCROW")) = none
        from by rw [find?_single, if_neg]; rw [hpe1]; exact
          Bool.false_ne_true]
      rfl
    have hbalE2 : findBalance
        (afterAppend sha (afterAppend sha db (primaryParams intent) erow)
          (discountParams intent) mrow)
        PLATFORM_ESCROW = some
          { erow with
              balance := erow.balance +
                balanceChange (primaryParams intent),
              lastEntrySeq :=
                (newEntry sha db (primaryParams intent)).walletSeq } := by
      rw [findBalance_afterAppend_ne _ _ _ _
        (show PLATFORM_ESCROW ≠ MARKETING_WALLET from by decide)]
      exact findBalance_afterAppend_self sha db (primaryParams intent)
        erow herow
    have hb3 : (0:Int) ≤ (erow.balance +
        balanceChange (primaryParams intent)) +
        balanceChange (subsidyParams intent) := by
      show (0:Int) ≤ erow.balance + intent.amount + intent.discountAmount
      omega
    have happ3 : appendEntry sha
        (afterAppend sha (afterAppend sha db (primaryParams intent) erow)
          (discountParams intent) mrow)
        (subsidyParams intent) =
        .ok (toResult (newEntry sha
            (afterAppend sha
              (afterAppend sha db (primaryParams intent) erow)
              (discountParams intent) mrow)
            (subsidyParams intent)),
          afterAppend sha
            (afterAppend sha
              (afterAppend sha db (primaryParams intent) erow)
              (discountParams intent) mrow)
            (subsidyParams intent)
            { erow with
                balance := erow.balance +
                  balanceChange (primaryParams intent),
                lastEntrySeq :=
                  (newEntry sha db (primaryParams intent)).walletSeq }) :=
      appendEntry_fresh_cache_ok (p := subsidyParams intent)
        hprobe3 hbalE2 hb3
    simp only [happ3]
    refine ⟨_, _, rfl, rfl, ?_, ?_, ?_⟩
    · exact findIntent_map_settled _ _ hfind
    · intro hz
      exact absurd hdisc (by omega)
    · intro _
      have hE1 : entriesFor (afterAppend sha db (primaryParams intent)
          erow) (primaryParams intent).accountId =
          entriesFor db (primaryParams intent).accountId ++
            [newEntry sha db (primaryParams intent)] :=
        entriesFor_append_newEntry rfl
      have hE2 : entriesFor
          (afterAppend sha (afterAppend sha db (primaryParams intent)
            erow) (discountParams intent) mrow) PLATFORM_ESCROW =
          entriesFor (afterAppend sha db (primaryParams intent) erow)
            PLATFORM_ESCROW :=
        entriesFor_append_other rfl
          (show MARKETING_WALLET ≠ PLATFORM_ESCROW from by decide)
      have hnext : nextSeq
          (afterAppend sha (afterAppend sha db (primaryParams intent)
            erow) (discountParams intent) mrow) PLATFORM_ESCROW =
          (newEntry sha db (primaryParams intent)).walletSeq + 1 :=
        nextSeq_after_append (hE2.trans hE1)
      refine ⟨_, _, _, rfl, rfl, rfl, rfl, rfl, rfl, rfl, rfl, rfl,
        rfl, rfl, rfl, hconv, ?_⟩
      show (newEntry sha db (primaryParams intent)).walletSeq <
        (newEntry sha
          (afterAppend sha (afterAppend sha db (primaryParams intent)
            erow) (discountParams intent) mrow)
          (subsidyParams intent)).walletSeq
      have h3seq : (newEntry sha
          (afterAppend sha (afterAppend sha db (primaryParams intent)
            erow) (discountParams intent) mrow)
          (subsidyParams intent)).walletSeq =
          (newEntry sha db (primaryParams intent)).walletSeq + 1 := by
        rw [newEntry_walletSeq]
        rw [show (subsidyParams intent).accountId = PLATFORM_ESCROW
          from rfl]
        exact hnext
      rw [h3seq]
      omega
  · rw [if_neg hdisc]
    refine ⟨_, _, rfl, rfl, ?_, ?_, ?_⟩
    · exact findIntent_map_settled _ _ hfind
    · intro _
      exact ⟨toResult (newEntry sha db (primaryParams intent)),
        rfl, rfl, rfl, rfl, rfl⟩
    · intro hc
      exact absurd hc hdisc

/-- A CONFIRMING intent with a 2000.0000 discount subsidy, as in the
spec's discount scenario. -/
def intentC2 : PaymentIntent :=
  { id := "pi_C2", reference := "PAYMENT_O2", orderId := "O2",
    amount := 80000000, originalAmount := 100000000,
    discountAmount := 20000000, discountCode := some "PROMO2024",
    status := IntentStatus.CONFIRMING }

/-- The seeded store plus `intentC2`. -/
def dbC2 : DB := { seededDB hashFn with intents := [intentC2] }

/-- Witness for C2 at the concrete discount scenario. -/
theorem settlement_leg_count_witness :
    intentC2.status = IntentStatus.CONFIRMING ∧
    (∃ res db', settlePayment hashFn dbC2 "pi_C2" = .ok (res, db') ∧
      res.success = true ∧
      db'.intents.find? (fun i => i.id == "pi_C2") =
        some { intentC2 with status := IntentStatus.SETTLED } ∧
      (intentC2.discountAmount = 0 → ∃ p,
        res.ledgerEntries = [p] ∧ p.accountId = PLATFORM_ESCROW ∧
        p.entryType = .CREDIT ∧ p.amount = intentC2.amount ∧
        p.reference = intentC2.reference) ∧
      (0 < intentC2.discountAmount → ∃ p d s,
        res.ledgerEntries = [p, d, s] ∧
        p.accountId = PLATFORM_ESCROW ∧ p.entryType = .CREDIT ∧
        p.amount = intentC2.amount ∧ p.reference = intentC2.reference ∧
        d.accountId = MARKETING_WALLET ∧ d.entryType = .DEBIT ∧
        d.amount = intentC2.discountAmount ∧
        d.reference = intentC2.reference ++ "_DISC" ∧
        s.accountId = PLATFORM_ESCROW ∧ s.entryType = .CREDIT ∧
        s.amount = intentC2.discountAmount ∧
        s.reference = intentC2.reference ++ "_DISC_ESCROW" ∧
        p.walletSeq < s.walletSeq)) :=
  ⟨rfl, settlement_leg_count hashFn dbC2 "pi_C2" intentC2
    { accountId := PLATFORM_ESCROW, balance := 0, currency := "NGN",
      lastEntrySeq := 0 }
    { accountId := MARKETING_WALLET, balance := 10000000000,
      currency := "NGN", lastEntrySeq := 1 }
    (by decide) rfl (by decide) (by decide) (by decide) (by decide)
    (by decide) (by decide) (by decide) (by decide)⟩

-- ---------------------------------------------------------------------
-- C3: atomic rollback when the marketing debit overdraws
-- ---------------------------------------------------------------------

/-- C3: when the discount exceeds the marketing wallet's cached
balance, the whole settlement transaction fails with the
insufficient-balance error and rolls back: the store after the call is
the store before it — no ledger entry (of the reference or its
`_DISC`/`_DISC_ESCROW` variants, or any other) is persisted, no
balance-cache row changes, and the intent remains CONFIRMING. -/
theorem settlement_rollback_insufficient (sha : String → String)
    (db : DB) (intentId : String) (intent : PaymentIntent)
    (erow mrow : BalanceRow)
    (hfind : db.intents.find? (fun i => i.id == intentId) = some intent)
    (hst : intent.status = IntentStatus.CONFIRMING)
    (ham : 0 ≤ intent.amount)
    (herow : findBalance db PLATFORM_ESCROW = some erow)
    (he0 : 0 ≤ erow.balance)
    (hdisc : 0 < intent.discountAmount)
    (hmrow : findBalance db MARKETING_WALLET = some mrow)
    (hmbal : mrow.balance < intent.discountAmount)
    (hf1 : findEntryByAccountRef db PLATFORM_ESCROW intent.reference =
      none)
    (hf2 : findEntryByAccountRef db MARKETING_WALLET
      (intent.reference ++ "_DISC") = none) :
    settlePayment sha db intentId = .error (.ledger
      (.insufficientBalance MARKETING_WALLET mrow.balance
        (decimalToString intent.discountAmount))) ∧
    settleRun sha db intentId = db ∧
    (settleRun sha db intentId).entries = db.entries ∧
    (settleRun sha db intentId).balances = db.balances ∧
    (settleRun sha db intentId).intents.find?
      (fun i => i.id == intentId) = some intent := by
  have hns : ¬(intent.status = IntentStatus.SETTLED) := by
    rw [hst]
    exact fun hc => IntentStatus.noConfusion hc
  have hnc : ¬(intent.status ≠ IntentStatus.CONFIRMING) :=
    fun hc => hc hst
  have hb1 : (0:Int) ≤ erow.balance +
      balanceChange (primaryParams intent) := by
    show (0:Int) ≤ erow.balance + intent.amount
    omega
  have happ1 : appendEntry sha db (primaryParams intent) =
      .ok (toResult (newEntry sha db (primaryParams intent)),
        afterAppend sha db (primaryParams intent) erow) :=
    appendEntry_fresh_cache_ok (p := primaryParams intent) hf1 herow hb1
  have hprobe2 : findEntryByAccountRef
      (afterAppend sha db (primaryParams intent) erow)
      MARKETING_WALLET (intent.reference ++ "_DISC") = none := by
    rw [findEntryByAccountRef_afterAppend, hf2]
    rfl
  have hbalM : findBalance
      (afterAppend sha db (primaryParams intent) erow)
      MARKETING_WALLET = some mrow := by
    rw [findBalance_afterAppend_ne _ _ _ _
      (show MARKETING_WALLET ≠ PLATFORM_ESCROW from by decide)]
    exact hmrow
  have hneg : mrow.balance + balanceChange (discountParams intent) <
      (0:Int) := by
    show mrow.balance + -intent.discountAmount < (0:Int)
    omega
  have happ2 : appendEntry sha
      (afterAppend sha db (primaryParams intent) erow)
      (discountParams intent) = .error (.insufficientBalance
        MARKETING_WALLET mrow.balance
        (decimalToString intent.discountAmount)) :=
    appendEntry_insufficient (p := discountParams intent)
      hprobe2 hbalM hneg
  have hmain : settlePayment sha db intentId = .error (.ledger
      (.insufficientBalance MARKETING_WALLET mrow.balance
        (decimalToString intent.discountAmount))) := by
    unfold settlePayment
    simp only [hfind]
    rw [if_neg hns, if_neg hnc]
    simp only [happ1]
    rw [if_pos hdisc]
    simp only [happ2]
  have hrun : settleRun sha db intentId = db := by
    simp only [settleRun, hmain]
  exact ⟨hmain, hrun, by rw [hrun], by rw [hrun], by rw [hrun, hfind]⟩

/-- A CONFIRMING intent whose subsidy (2000.0000) exceeds the drained
marketing balance (1000.0000). -/
def intentC3 : PaymentIntent :=
  { id := "pi_C3", reference := "PAYMENT_OX", orderId := "OX",
    amount := 80000000, originalAmount := 100000000,
    discountAmount := 20000000, discountCode := some "PROMO",
    status := IntentStatus.CONFIRMING }

/-- Store with the marketing wallet drained to 1000.0000. -/
def dbC3 : DB :=
  { balances :=
      [{ accountId := PLATFORM_ESCROW, balance := 0, currency := "NGN",
         lastEntrySeq := 0 },
       { accountId := MARKETING_WALLET, balance := 10000000,
         currency := "NGN", lastEntrySeq := 0 }],
    intents := [intentC3] }

/-- Witness for C3: the drained-marketing scenario rolls back whole. -/
theorem settlement_rollback_insufficient_witness :
    intentC3.status = IntentStatus.CONFIRMING ∧
    (0:Int) < intentC3.discountAmount ∧
    (settlePayment hashFn dbC3 "pi_C3" = .error (.ledger
      (.insufficientBalance MARKETING_WALLET 10000000
        (decimalToString intentC3.discountAmount))) ∧
    settleRun hashFn dbC3 "pi_C3" = dbC3 ∧
    (settleRun hashFn dbC3 "pi_C3").entries = dbC3.entries ∧
    (settleRun hashFn dbC3 "pi_C3").balances = dbC3.balances ∧
    (settleRun hashFn dbC3 "pi_C3").intents.find?
      (fun i => i.id == "pi_C3") = some intentC3) :=
  ⟨rfl, by decide,
    settlement_rollback_insufficient hashFn dbC3 "pi_C3" intentC3
      { accountId := PLATFORM_ESCROW, balance := 0, currency := "NGN",
        lastEntrySeq := 0 }
      { accountId := MARKETING_WALLET, balance := 10000000,
        currency := "NGN", lastEntrySeq := 0 }
      (by decide) rfl (by decide) (by decide) (by decide) (by decide)
      (by decide) (by decide) (by decide) (by decide)⟩

-- ---------------------------------------------------------------------
-- C6: the already-settled idempotent return
-- ---------------------------------------------------------------------

/-- C6 (amended): for an already-SETTLED intent, `settlePayment`
performs no writes and returns success with message
"Payment already settled" together with the stored entries whose
reference has `intent.reference` as a prefix — the source queries
`reference: { startsWith: intent.reference }`, which contains the
`R`/`R_DISC`/`R_DISC_ESCROW` legs but can also contain entries of other
references extending `R`. -/
theorem settled_idempotent_return (sha : String → String) (db : DB)
    (intentId : String) (intent : PaymentIntent)
    (hfind : db.intents.find? (fun i => i.id == intentId) = some intent)
    (hst : intent.status = IntentStatus.SETTLED) :
    settlePayment sha db intentId = .ok
      ({ success := true, paymentIntentId := intentId,
         reference := intent.reference,
         ledgerEntries := (db.entries.filter (fun e =>
           strStartsWith e.reference intent.reference)).map toResult,
         message := "Payment already settled" }, db) := by
  unfold settlePayment
  simp only [hfind]
  rw [if_pos hst]

/-- A ledger entry of a different payment (`PAYMENT_O12`) whose
reference extends `PAYMENT_O1`. -/
def entC6 : LedgerEntry :=
  { id := 0, accountId := PLATFORM_ESCROW, walletSeq := 1,
    reference := "PAYMENT_O12", entryType := .CREDIT,
    amount := 50000000, entryHash := "h12" }

/-- An intent for order `O1`, already settled. -/
def intentC6 : PaymentIntent :=
  { id := "pi_C6", reference := "PAYMENT_O1", orderId := "O1",
    amount := 10000000, originalAmount := 10000000,
    discountAmount := 0, status := IntentStatus.SETTLED }

/-- Store holding the settled `O1` intent and the foreign `PAYMENT_O12`
entry. -/
def dbC6 : DB := { entries := [entC6], intents := [intentC6] }

/-- Counterexample to C6 as stated: the already-settled return for
`PAYMENT_O1` includes the entry of reference `PAYMENT_O12`, which is
none of `PAYMENT_O1`, `PAYMENT_O1_DISC`, `PAYMENT_O1_DISC_ESCROW`. -/
theorem settled_return_counterexample :
    (match settlePayment hashFn dbC6 "pi_C6" with
     | .ok (res, _) => res.ledgerEntries.map (fun e => e.reference)
     | .error _ => []) = ["PAYMENT_O12"] ∧
    ¬("PAYMENT_O12" = "PAYMENT_O1" ∨
      "PAYMENT_O12" = "PAYMENT_O1" ++ "_DISC" ∨
      "PAYMENT_O12" = "PAYMENT_O1" ++ "_DISC_ESCROW") := by
  decide

/-- Witness for the amended C6 on the same store. -/
theorem settled_idempotent_return_witness :
    intentC6.status = IntentStatus.SETTLED ∧
    settlePayment hashFn dbC6 "pi_C6" = .ok
      ({ success := true, paymentIntentId := "pi_C6",
         reference := intentC6.reference,
         ledgerEntries := (dbC6.entries.filter (fun e =>
           strStartsWith e.reference intentC6.reference)).map toResult,
         message := "Payment already settled" }, dbC6) :=
  ⟨rfl, settled_idempotent_return hashFn dbC6 "pi_C6" intentC6
    (by decide) rfl⟩

-- ---------------------------------------------------------------------
-- C7: the flutterwave signature stub
-- ---------------------------------------------------------------------

/-- A non-development environment with a configured secret hash. -/
def envC7 : Env :=
  { nodeEnv := "production", flutterwaveSecretHash := "whsec_123" }

/-- A flutterwave webhook whose `verif-hash` header carries exactly the
configured secret. -/
def payloadC7 : WebhookPayload :=
  { provider := "flutterwave", providerEventId := "evt_7",
    reference := some "PAYMENT_O1", rawBody := "rawbody",
    headers := [("verif-hash", "whsec_123")] }

/-- C7 fails on the code: outside development mode
`verifyFlutterwaveSignature` is a stub that returns `false`
unconditionally, so a signature that matches the configured
`FLUTTERWAVE_SECRET_HASH` is still rejected and the inbox entry is
marked FAILED — the claimed "accepted iff matches" does not hold. -/
theorem flutterwave_signature_stub_rejects :
    envC7.nodeEnv ≠ "development" ∧
    jsOrStr (getHeader payloadC7.headers "verif-hash")
      (jsOrStr (getHeader payloadC7.headers "x-flw-signature") "") =
      envC7.flutterwaveSecretHash ∧
    verifySignature envC7 payloadC7.provider payloadC7.rawBody
      payloadC7.headers = false ∧
    (processWebhook envC7 dbEmpty payloadC7).1.status =
      WebhookStatus.FAILED ∧
    ((processWebhook envC7 dbEmpty payloadC7).2.webhooks.map
      (fun w => (w.status, w.errorMessage))) =
      [(WebhookStatus.FAILED, some "Signature verification failed")] := by
  decide

-- ---------------------------------------------------------------------
-- C8: webhook deduplication
-- ---------------------------------------------------------------------

/-- C8: when `(provider, providerEventId)` already has an inbox row,
`processWebhook` creates no new row and returns
`{isDuplicate: true, status: DUPLICATE}`; the result and the store are
independent of the environment (no signature verification), the ledger
and intents are untouched (no settlement), the pre-existing row is
transitioned to DUPLICATE exactly as the source's conditional update
does, and the number of rows of the pair is unchanged. -/
theorem webhook_dedup (env env' : Env) (db : DB) (p : WebhookPayload)
    (w : WebhookInboxEntry)
    (hfind : db.webhooks.find? (fun x => x.provider == p.provider &&
      x.providerEventId == p.providerEventId) = some w) :
    (processWebhook env db p).1 =
      { id := w.id, status := WebhookStatus.DUPLICATE,
        isDuplicate := true, message := "Webhook already processed" } ∧
    processWebhook env db p = processWebhook env' db p ∧
    (processWebhook env db p).2.webhooks.length =
      db.webhooks.length ∧
    (processWebhook env db p).2.entries = db.entries ∧
    (processWebhook env db p).2.balances = db.balances ∧
    (processWebhook env db p).2.intents = db.intents ∧
    (processWebhook env db p).2.webhooks =
      (if w.status ≠ WebhookStatus.DUPLICATE then
        db.webhooks.map (fun x => if x.id == w.id then
          { x with status := WebhookStatus.DUPLICATE } else x)
      else db.webhooks) ∧
    ((processWebhook env db p).2.webhooks.filter (fun x =>
        x.provider == p.provider &&
        x.providerEventId == p.providerEventId)).length =
      (db.webhooks.filter (fun x => x.provider == p.provider &&
        x.providerEventId == p.providerEventId)).length := by
  have hmain : processWebhook env db p =
      ({ id := w.id, status := WebhookStatus.DUPLICATE,
         isDuplicate := true, message := "Webhook already processed" },
       if w.status ≠ WebhookStatus.DUPLICATE then
         updateWebhook db w.id
           (fun x => { x with status := WebhookStatus.DUPLICATE })
       else db) := by
    unfold processWebhook
    simp only [hfind]
  have hmain' : processWebhook env' db p =
      ({ id := w.id, status := WebhookStatus.DUPLICATE,
         isDuplicate := true, message := "Webhook already processed" },
       if w.status ≠ WebhookStatus.DUPLICATE then
         updateWebhook db w.id
           (fun x => { x with status := WebhookStatus.DUPLICATE })
       else db) := by
    unfold processWebhook
    simp only [hfind]
  have hqf : ∀ x : WebhookInboxEntry,
      (((if x.id == w.id then
          { x with status := WebhookStatus.DUPLICATE } else x).provider ==
            p.provider) &&
        ((if x.id == w.id then
          { x with status := WebhookStatus.DUPLICATE }
         else x).providerEventId == p.providerEventId)) =
      ((x.provider == p.provider) &&
        (x.providerEventId == p.providerEventId)) := by
    intro x
    by_cases hc : (x.id == w.id) = true
    · rw [if_pos hc]
    · rw [if_neg hc]
  refine ⟨by rw [hmain], hmain.trans hmain'.symm, ?_, ?_, ?_, ?_, ?_, ?_⟩
  · rw [hmain]
    by_cases hs : w.status ≠ WebhookStatus.DUPLICATE
    · simp only [if_pos hs, updateWebhook]
      exact List.length_map _ _
    · simp only [if_neg hs]
  · rw [hmain]
    by_cases hs : w.status ≠ WebhookStatus.DUPLICATE
    · rw [if_pos hs]
      rfl
    · rw [if_neg hs]
  · rw [hmain]
    by_cases hs : w.status ≠ WebhookStatus.DUPLICATE
    · rw [if_pos hs]
      rfl
    · rw [if_neg hs]
  · rw [hmain]
    by_cases hs : w.status ≠ WebhookStatus.DUPLICATE
    · rw [if_pos hs]
      rfl
    · rw [if_neg hs]
  · rw [hmain]
    by_cases hs : w.status ≠ WebhookStatus.DUPLICATE
    · rw [if_pos hs, if_pos hs]
      rfl
    · rw [if_neg hs, if_neg hs]
  · rw [hmain]
    by_cases hs : w.status ≠ WebhookStatus.DUPLICATE
    · rw [if_pos hs]
      show ((updateWebhook db w.id _).webhooks.filter _).length = _
      unfold updateWebhook
      simp only
      rw [List.filter_map]
      rw [show ((fun x : WebhookInboxEntry =>
        x.provider == p.provider &&
          x.providerEventId == p.providerEventId) ∘ (fun x =>
        if x.id == w.id then { x with status := WebhookStatus.DUPLICATE }
        else x)) = fun x : WebhookInboxEntry =>
        x.provider == p.provider &&
          x.providerEventId == p.providerEventId
        from funext hqf]
      exact List.length_map _ _
    · rw [if_neg hs]

/-- A stored inbox row for the pair `("flutterwave", "evt_8")`. -/
def whC8 : WebhookInboxEntry :=
  { id := 3, provider := "flutterwave", providerEventId := "evt_8",
    reference := some "PAYMENT_O8", status := WebhookStatus.PROCESSED }

/-- Store holding `whC8`. -/
def dbC8 : DB := { webhooks := [whC8], nextWebhookId := 4 }

/-- The same provider event delivered again. -/
def payloadC8 : WebhookPayload :=
  { provider := "flutterwave", providerEventId := "evt_8",
    reference := some "PAYMENT_O8", rawBody := "x", headers := [] }

/-- Witness for C8: redelivery of `evt_8` is detected as a duplicate. -/
theorem webhook_dedup_witness :
    (dbC8.webhooks.find? (fun x => x.provider == payloadC8.provider &&
      x.providerEventId == payloadC8.providerEventId) = some whC8) ∧
    (processWebhook envC7 dbC8 payloadC8).1 =
      { id := whC8.id, status := WebhookStatus.DUPLICATE,
        isDuplicate := true, message := "Webhook already processed" } ∧
    (processWebhook envC7 dbC8 payloadC8).2.webhooks.length =
      dbC8.webhooks.length :=
  have h := webhook_dedup envC7 envC7 dbC8 payloadC8 whC8 (by decide)
  ⟨by decide, h.1, h.2.2.1⟩

-- ---------------------------------------------------------------------
-- C9: the settlement trigger stub and the PROCESSED transition
-- ---------------------------------------------------------------------

/-- A development environment (the stub verifier accepts). -/
def envDev : Env := { nodeEnv := "development",
                      flutterwaveSecretHash := "" }

/-- A verified webhook without a reference. -/
def payloadC9 : WebhookPayload :=
  { provider := "flutterwave", providerEventId := "evt_9",
    reference := none, rawBody := "x", headers := [] }

/-- C9 fails on the code: `triggerSettlement` is a logging stub
(`TODO: Call settlement-service`), and after verification the inbox
entry is set to PROCESSED unconditionally — also when the reference is
absent, where the claim says the status must remain VERIFIED; no
settlement is invoked in either case (the store's intents and ledger
are untouched). -/
theorem webhook_processed_without_settlement :
    payloadC9.reference = none ∧
    (processWebhook envDev dbEmpty payloadC9).1.status =
      WebhookStatus.PROCESSED ∧
    ((processWebhook envDev dbEmpty payloadC9).2.webhooks.map
      (fun w => w.status)) = [WebhookStatus.PROCESSED] ∧
    (processWebhook envDev dbEmpty payloadC9).2.entries =
      dbEmpty.entries ∧
    (processWebhook envDev dbEmpty payloadC9).2.intents =
      dbEmpty.intents := by
  decide

-- ---------------------------------------------------------------------
-- C10: validation precedes the idempotency probe in intent creation
-- ---------------------------------------------------------------------

/-- C10: even when an intent with the derived reference
`PAYMENT_{orderId}` is already stored, `createPaymentIntent` validates
the amount/discount invariants first: `originalAmount < amount` fails
with INVALID_AMOUNTS, a non-positive amount (with consistent amounts)
fails with INVALID_AMOUNT, a positive discount without a code fails
with DISCOUNT_CODE_REQUIRED — in each case the stored intent is not
returned; only a duplicate input that itself passes validation returns
the stored intent unchanged, with no insert. -/
theorem intent_create_validates_before_probe (db : DB)
    (dto : CreatePaymentIntentDto) (newId : String) (ex : PaymentIntent)
    (hex : db.intents.find? (fun i =>
      i.reference == generatePaymentReference dto.orderId) = some ex) :
    (dto.originalAmount < dto.amount →
      createPaymentIntent db dto newId = .error .INVALID_AMOUNTS) ∧
    (dto.amount ≤ dto.originalAmount → dto.amount ≤ 0 →
      createPaymentIntent db dto newId = .error .INVALID_AMOUNT) ∧
    (0 < dto.amount → 0 < dto.originalAmount - dto.amount →
      isFalsyStr dto.discountCode = true →
      createPaymentIntent db dto newId =
        .error .DISCOUNT_CODE_REQUIRED) ∧
    (0 < dto.amount → dto.amount ≤ dto.originalAmount →
      (0 < dto.originalAmount - dto.amount →
        isFalsyStr dto.discountCode = false) →
      createPaymentIntent db dto newId = .ok (ex, db)) := by
  refine ⟨?_, ?_, ?_, ?_⟩
  · intro h1
    simp only [createPaymentIntent, validateInvariants]
    rw [if_pos h1]
  · intro h1 h2
    simp only [createPaymentIntent, validateInvariants]
    rw [if_neg (not_lt.mpr h1), if_pos h2]
  · intro h1 h2 h3
    simp only [createPaymentIntent, validateInvariants]
    rw [if_neg (not_lt.mpr (by omega : dto.amount ≤ dto.originalAmount)),
      if_neg (not_le.mpr h1), if_pos ⟨h2, by rw [h3]⟩]
  · intro h1 h2 h3
    simp only [createPaymentIntent, validateInvariants]
    rw [if_neg (not_lt.mpr h2), if_neg (not_le.mpr h1)]
    rw [if_neg ?hc, if_neg (by omega : ¬(dto.originalAmount -
      dto.amount < 0))]
    case hc =>
      intro hand
      rw [h3 hand.1] at hand
      exact Bool.false_ne_true hand.2
    simp only [hex]

/-- A stored intent for order `O9`. -/
def intentC10 : PaymentIntent :=
  { id := "pi_10", reference := "PAYMENT_O9", orderId := "O9",
    amount := 10000000, originalAmount := 10000000,
    discountAmount := 0, status := IntentStatus.PENDING }

/-- Store holding `intentC10`. -/
def dbC10 : DB := { intents := [intentC10] }

/-- Duplicate create for `O9` carrying a discount without a code. -/
def dtoBad : CreatePaymentIntentDto :=
  { orderId := "O9", amount := 80000000, originalAmount := 100000000,
    discountCode := none, provider := "flutterwave" }

/-- Duplicate create for `O9` that passes validation. -/
def dtoGood : CreatePaymentIntentDto :=
  { orderId := "O9", amount := 10000000, originalAmount := 10000000,
    provider := "flutterwave" }

/-- Witness for C10: the invalid duplicate is rejected with
DISCOUNT_CODE_REQUIRED; the valid duplicate returns the stored intent
unchanged. -/
theorem intent_create_validates_witness :
    createPaymentIntent dbC10 dtoBad "pi_new" =
      .error .DISCOUNT_CODE_REQUIRED ∧
    createPaymentIntent dbC10 dtoGood "pi_new" = .ok (intentC10, dbC10) :=
  ⟨(intent_create_validates_before_probe dbC10 dtoBad "pi_new" intentC10
      (by decide)).2.2.1 (by decide) (by decide) (by decide),
   (intent_create_validates_before_probe dbC10 dtoGood "pi_new" intentC10
      (by decide)).2.2.2 (by decide) (by decide)
      (fun hc => absurd hc (by decide))⟩

end Synth
